import Mathlib

/-!
Verification development for the XML↔object mapping core of the
Blender-Anno-.cfg-Import-Addon repository.

The Python sources are shallowly embedded: pure functions become Lean
functions, mutation of `xml.etree.ElementTree` nodes and of Blender
property groups becomes explicit state passing, and Python exceptions
become `Option` (a `none` result models an exception propagating to the
caller).  Python machine floats are modelled by exact rationals; the
decimal grammar is modelled on its ASCII fragment (no underscores, no
infinities, no nan, no non-ASCII digits), which covers every input
appearing in the claims.

Global state that lives outside the embedded modules (the
`bpy.data.objects` name table and the `feedback_enums` sequence-id
tables; `feedback_enums` is imported by the sources but its module is not
among them) is passed explicitly as an `Env` value.

String routines are implemented over `List Char` so that all concrete
computations reduce inside the kernel.
-/

/-! ## Python string and number primitives -/

/-- Whitespace for the purposes of `int(s)` and `float(s)` stripping. -/
def isPySpace (c : Char) : Bool :=
  c = ' ' ∨ c = '\t' ∨ c = '\n' ∨ c = '\r' ∨ c = '\x0b' ∨ c = '\x0c'

/-- Strip leading and trailing whitespace from a character list. -/
def pyStripChars (cs : List Char) : List Char :=
  ((cs.dropWhile isPySpace).reverse.dropWhile isPySpace).reverse

/-- Model of the Python `str.isnumeric` test on its ASCII fragment:
true exactly for nonempty all-digit strings. -/
def pyIsNumeric (s : String) : Bool :=
  !s.data.isEmpty && s.data.all Char.isDigit

/-- Model of the Python `s.lstrip("-")`: drop every leading minus sign. -/
def pyLstripMinus (s : String) : String :=
  String.mk (s.data.dropWhile (· = '-'))

/-- Digits to the natural number they denote in base 10. -/
def digitsToNat (cs : List Char) : Nat :=
  cs.foldl (fun n c => 10 * n + (c.toNat - 48)) 0

/-- Optional sign: returns the sign factor and the remaining characters. -/
def takeSign (cs : List Char) : Int × List Char :=
  match cs with
  | '-' :: rest => (-1, rest)
  | '+' :: rest => (1, rest)
  | rest => (1, rest)

/-- Model of the Python `int(s)` constructor on its ASCII fragment:
surrounding whitespace is stripped, one optional sign is consumed, and a
nonempty run of decimal digits must remain.  `none` models the raised
`ValueError`. -/
def pyParseInt (s : String) : Option Int :=
  let signed := takeSign (pyStripChars s.data)
  if !signed.2.isEmpty && signed.2.all Char.isDigit then
    some (signed.1 * (digitsToNat signed.2 : Nat))
  else
    none

/-- Helper for the float grammar: split off a leading digit run. -/
def spanDigits (cs : List Char) : List Char × List Char :=
  (cs.takeWhile Char.isDigit, cs.dropWhile Char.isDigit)

/-- Exponent part of a float literal: optional sign then a nonempty digit
run consuming the whole remainder. -/
def parseExponent (cs : List Char) : Option Int :=
  let signed := takeSign cs
  if !signed.2.isEmpty && signed.2.all Char.isDigit then
    some (signed.1 * (digitsToNat signed.2 : Nat))
  else
    none

/-- Assemble the exact rational value `sgn * mantissa * 10^k / 10^flen`
of a decimal literal, using `mkRat` only. -/
def decimalValue (sgn : Int) (mantissa : Nat) (flen : Nat) (k : Int) : ℚ :=
  if 0 ≤ k then
    mkRat (sgn * (mantissa * 10 ^ k.toNat : Nat)) (10 ^ flen)
  else
    mkRat (sgn * mantissa) (10 ^ (flen + k.natAbs))

/-- Model of the Python `float(s)` constructor on its ASCII decimal
fragment: optional sign, then `digits[.digits]`, `digits.` or `.digits`,
then an optional `e`/`E` exponent, with nothing left over.  The result is
the exact rational value of the literal; `none` models the raised
`ValueError`. -/
def pyParseFloat (s : String) : Option ℚ :=
  let signed := takeSign (pyStripChars s.data)
  let ipart := (spanDigits signed.2).1
  let rest1 := (spanDigits signed.2).2
  let hasDot : Bool := match rest1 with | '.' :: _ => true | _ => false
  let fpart := if hasDot then (spanDigits rest1.tail).1 else []
  let rest2 := if hasDot then (spanDigits rest1.tail).2 else rest1
  if ipart.isEmpty && fpart.isEmpty then
    none
  else
    let m := digitsToNat (ipart ++ fpart)
    match rest2 with
    | [] => some (decimalValue signed.1 m fpart.length 0)
    | 'e' :: er =>
      match parseExponent er with
      | some k => some (decimalValue signed.1 m fpart.length k)
      | none => none
    | 'E' :: er =>
      match parseExponent er with
      | some k => some (decimalValue signed.1 m fpart.length k)
      | none => none
    | _ => none

/-- Model of the utils `is_type(float, s)` probe: whether `float(s)`
succeeds. -/
def is_type_float (s : String) : Bool :=
  (pyParseFloat s).isSome

/-- Round the fraction `a / b` (with `b > 0`) to the nearest integer,
ties to even: the rounding Python uses when formatting to a fixed number
of decimals. -/
def intRoundHalfEven (a : Int) (b : Nat) : Int :=
  let d := Int.fdiv a b
  let r := a - d * b
  if 2 * r < b then d
  else if (b : Int) < 2 * r then d + 1
  else if d % 2 = 0 then d else d + 1

/-- Left-pad a decimal digit string with zeros to the given width. -/
def padZeros (w : Nat) (s : String) : String :=
  String.mk (List.replicate (w - s.data.length) '0') ++ s

/-- Embedding of utils `format_float`: format the value with exactly six
digits after the decimal point, keeping the sign of the value. -/
def format_float (q : ℚ) : String :=
  let n := (intRoundHalfEven (q.num * 1000000) q.den).natAbs
  (if q.num < 0 then "-" else "") ++ toString (n / 1000000) ++ "." ++
    padZeros 6 (toString (n % 1000000))

/-- Model of the Python `str` of a float, needed only for the integral
default values `0.0` and `1.0` that the transform reader routes through
`str(default)`; integral rationals render as `n.0`. -/
def pyFloatRepr (q : ℚ) : String :=
  if q.den = 1 then toString q.num ++ ".0" else format_float q

/-- Model of applying the fixed-point format code to a Python `str`
value: `str.__format__` rejects the `f` format code, so this raises
whatever the string is. -/
def formatFloatOnPyStr (_s : String) : Option String :=
  none

/-- Model of `s.startswith(p)` over character lists. -/
def pyStartsWith (s p : String) : Bool :=
  p.data.isPrefixOf s.data

/-- Split a character list at every occurrence of a separator. -/
def listSplitOnChar (sep : Char) (cs : List Char) : List (List Char) :=
  match cs.foldr
      (fun c acc =>
        if c = sep then ([], acc.1 :: acc.2) else (c :: acc.1, acc.2))
      (([] : List Char), ([] : List (List Char))) with
  | (first, rest) => first :: rest

/-- Model of the Python `s.split(sep)` for a one-character separator. -/
def pySplitOnChar (sep : Char) (s : String) : List String :=
  (listSplitOnChar sep s.data).map String.mk

/-- Remove every occurrence of a nonempty pattern, scanning left to right
and continuing after each removed occurrence, as `s.replace(pat, "")`
does; the fuel argument makes the recursion structural. -/
def removeAllAux (pat : List Char) : Nat → List Char → List Char
  | 0, cs => cs
  | _ + 1, [] => []
  | fuel + 1, c :: rest =>
    if pat ≠ [] ∧ pat.isPrefixOf (c :: rest) then
      removeAllAux pat fuel ((c :: rest).drop pat.length)
    else
      c :: removeAllAux pat fuel rest

/-- Model of the Python `s.replace(pat, "")` for a nonempty pattern. -/
def pyRemoveAll (pat s : String) : String :=
  String.mk (removeAllAux pat.data s.data.length s.data)

/-! ## XML elements

An `xml.etree.ElementTree` element: tag, text and the ordered child
list.  Attributes are never touched by the embedded code and are
omitted. -/

inductive Element where
  | mk (tag : String) (text : Option String) (children : List Element)

def Element.tag : Element → String
  | .mk t _ _ => t

def Element.text : Element → Option String
  | .mk _ tx _ => tx

def Element.children : Element → List Element
  | .mk _ _ cs => cs

/-- A leaf subelement carrying a text payload, as created by
`ET.SubElement(parent, tag).text = value`. -/
def leafEl (tag value : String) : Element :=
  .mk tag (some value) []

mutual
def elBeq : Element → Element → Bool
  | .mk t tx cs, .mk t' tx' cs' => t = t' && tx = tx' && elsBeq cs cs'
def elsBeq : List Element → List Element → Bool
  | [], [] => true
  | c :: cs, c' :: cs' => elBeq c c' && elsBeq cs cs'
  | _, _ => false
end

mutual
theorem elBeq_iff : ∀ a b : Element, elBeq a b = true ↔ a = b
  | .mk t tx cs, .mk t' tx' cs' => by
    simp [elBeq, elsBeq_iff cs cs']
    tauto
theorem elsBeq_iff : ∀ as bs : List Element, elsBeq as bs = true ↔ as = bs
  | [], [] => by simp [elsBeq]
  | [], _ :: _ => by simp [elsBeq]
  | _ :: _, [] => by simp [elsBeq]
  | a :: as, b :: bs => by
    simp [elsBeq, elBeq_iff a b, elsBeq_iff as bs]
end

instance : DecidableEq Element := fun a b =>
  decidable_of_iff (elBeq a b = true) (elBeq_iff a b)

/-- First direct child with the given tag: the `node.find(tag)` of
`ElementTree` for a plain tag query (`find` only searches direct
children). -/
def Element.findTag (node : Element) (tag : String) : Option Element :=
  node.children.find? (fun c => c.tag = tag)

/-- Remove the first direct child with the given tag, modelling
`node.remove(subnode)` for the subnode that `find` returned. -/
def removeFirstChildTag (tag : String) : List Element → List Element
  | [] => []
  | c :: cs => if c.tag = tag then cs else c :: removeFirstChildTag tag cs

/-- Embedding of utils `get_text` for a plain tag query: the text of the
first child with that tag, with the default both when the child is
missing and when its text is `None`. -/
def get_text (node : Element) (tag : String) (default : String) : String :=
  match node.findTag tag with
  | none => default
  | some sub => sub.text.getD default

/-- Embedding of utils `get_text_and_delete` for a plain tag query (the
only form the embedded callers use): returns the text and the node with
that child removed.  For a query without `/` the cleanup loop body never
runs, because `parent` is the node itself. -/
def get_text_and_delete (node : Element) (tag : String) (default : String) :
    String × Element :=
  match node.findTag tag with
  | none => (default, node)
  | some sub =>
    (sub.text.getD default,
      .mk node.tag node.text (removeFirstChildTag tag node.children))

/-! ## Environment

State of the surrounding process that the embedded code reads: the names
present in `bpy.data.objects`, and the two lookup tables of the
`feedback_enums` module (imported by the sources but not itself among
them, so its concrete content stays abstract here). -/

structure Env where
  objects : List String
  nameBySequenceId : List (Int × String)
  sequenceIdByName : List (String × Int)

/-! ## Value coercion engine

One `ConverterKind` value per `Converter` subclass of
`anno_object_ui.py`. -/

inductive ConverterKind where
  | stringC | boolC | intC | floatC | colorC | feedbackC | objectC
deriving DecidableEq, Repr

/-- The fixed tag override table `converter_by_tag`. -/
def converter_by_tag : List (String × ConverterKind) :=
  [("ConfigType", .stringC),
   ("FileName", .stringC),
   ("Name", .stringC),
   ("AdaptTerrainHeight", .boolC),
   ("HeightAdaptationMode", .boolC),
   ("DIFFUSE_ENABLED", .boolC),
   ("NORMAL_ENABLED", .boolC),
   ("METALLIC_TEX_ENABLED", .boolC),
   ("SEPARATE_AO_TEXTURE", .boolC),
   ("HEIGHT_MAP_ENABLED", .boolC),
   ("NIGHT_GLOW_ENABLED", .boolC),
   ("DYE_MASK_ENABLED", .boolC),
   ("cUseTerrainTinting", .boolC),
   ("SELF_SHADOWING_ENABLED", .boolC),
   ("WATER_CUTOUT_ENABLED", .boolC),
   ("ADJUST_TO_TERRAIN_HEIGHT", .boolC),
   ("GLOW_ENABLED", .boolC),
   ("SequenceID", .feedbackC),
   ("m_IdleSequenceID", .feedbackC),
   ("BlenderModelID", .objectC),
   ("BlenderParticleID", .objectC)]

/-- Embedding of `get_converter_for`: exact tag lookup first, then the
`_COLOR[` prefix test, then the numeric test
`value_string.isnumeric() or value_string.lstrip("-").isnumeric()`,
then the float probe, else string. -/
def get_converter_for (tag value_string : String) : ConverterKind :=
  match converter_by_tag.lookup tag with
  | some conv => conv
  | none =>
    if pyStartsWith value_string "_COLOR[" then .colorC
    else if pyIsNumeric value_string || pyIsNumeric (pyLstripMinus value_string) then .intC
    else if is_type_float value_string then .floatC
    else .stringC

/-- The base `Converter.from_string` computes a fallback value inside a
`try` block and logs on failure, but its final line returns
`cls.data_type()(s)` outside that block, so a failed conversion raises
again after logging rather than returning the fallback.  For the
subclasses that inherit it this makes `from_string` exactly the raw
conversion; `none` models the escaping exception. -/
def StringConverter.from_string (s : String) : Option String :=
  some s

def StringConverter.to_string (v : String) : String :=
  v

/-- Embedding of `BoolConverter.from_string`: `bool(int(s))`, raising on
text that `int` rejects. -/
def BoolConverter.from_string (s : String) : Option Bool :=
  (pyParseInt s).map (fun n => n ≠ 0)

/-- Embedding of `BoolConverter.to_string`: `str(int(value))`, so the
digits `"1"`/`"0"`. -/
def BoolConverter.to_string (b : Bool) : String :=
  if b then "1" else "0"

/-- Embedding of `IntConverter`, which inherits the base
`from_string` (see `StringConverter.from_string` on why the result is
the raw `int(s)`). -/
def IntConverter.from_string (s : String) : Option Int :=
  pyParseInt s

def IntConverter.to_string (v : Int) : String :=
  toString v

/-- Embedding of `FloatConverter`, inheriting the base `from_string`. -/
def FloatConverter.from_string (s : String) : Option ℚ :=
  pyParseFloat s

def FloatConverter.to_string (v : ℚ) : String :=
  format_float v

/-- Embedding of `FeedbackSequenceConverter.from_string`: `int(s)` (which
may raise), then a table lookup defaulting to `"none"`. -/
def FeedbackSequenceConverter.from_string (env : Env) (s : String) :
    Option String :=
  (pyParseInt s).map (fun seq_id => (env.nameBySequenceId.lookup seq_id).getD "none")

/-- Embedding of `FeedbackSequenceConverter.to_string`: reverse table
lookup defaulting to `-1`, rendered with `str`. -/
def FeedbackSequenceConverter.to_string (env : Env) (v : String) : String :=
  toString ((env.sequenceIdByName.lookup v).getD (-1))

/-- Embedding of `ObjectPointerConverter.from_string`:
`bpy.data.objects[s]`, a `KeyError` when no object has that name.  The
stored value is the object, identified here by its name. -/
def ObjectPointerConverter.from_string (env : Env) (s : String) :
    Option (Option String) :=
  if env.objects.contains s then some (some s) else none

/-- Embedding of `ObjectPointerConverter.to_string`: `""` for `None`,
otherwise the object name. -/
def ObjectPointerConverter.to_string (v : Option String) : String :=
  v.getD ""

/-- Embedding of `ColorConverter.from_string`: strip spaces, the
`_COLOR[` opener and the closing bracket, split on commas, assert three
components, then apply `format_float` to each component.  The components
are still strings at that point, and the fixed-point format code raises
on a string, so this conversion always raises (`none`): a color leaf can
never be stored. -/
def ColorConverter.from_string (s : String) : Option (List String) :=
  let values :=
    pySplitOnChar ',' (pyRemoveAll "]" (pyRemoveAll "_COLOR[" (pyRemoveAll " " s)))
  if values.length = 3 then
    values.mapM formatFloatOnPyStr
  else
    none

def joinCommaSpace : List String → String
  | [] => ""
  | [x] => x
  | x :: xs => x ++ ", " ++ joinCommaSpace xs

/-- Embedding of `ColorConverter.to_string`. -/
def ColorConverter.to_string (v : List String) : String :=
  "_COLOR[" ++ joinCommaSpace v ++ "]"

/-! ## Dynamic property tree (`XMLPropertyGroup`)

The non-recursive fields of the Blender `XMLPropertyGroup` in source
declaration order (`dynamic_properties`, the recursive collection, is
split into the wrapping inductive because Lean structures cannot be
recursive).  Collection properties become association lists of
(tag, value) pairs in insertion order. -/

structure PGCore where
  tag : String := ""
  config_type : String := ""
  feedback_sequence_properties : List (String × String) := []
  boolean_properties : List (String × Bool) := []
  filename_properties : List (String × String) := []
  string_properties : List (String × String) := []
  int_properties : List (String × Int) := []
  float_properties : List (String × ℚ) := []
  color_properties : List (String × List String) := []
  object_pointer_properties : List (String × Option String) := []
  hidden : Bool := false
  deleted : Bool := false
deriving DecidableEq

inductive XMLPropertyGroup where
  | mk (core : PGCore) (dynamic_properties : List XMLPropertyGroup)

def XMLPropertyGroup.core : XMLPropertyGroup → PGCore
  | .mk c _ => c

def XMLPropertyGroup.dynamic_properties :
    XMLPropertyGroup → List XMLPropertyGroup
  | .mk _ d => d

def XMLPropertyGroup.tag (pg : XMLPropertyGroup) : String :=
  pg.core.tag

def XMLPropertyGroup.deleted (pg : XMLPropertyGroup) : Bool :=
  pg.core.deleted

/-- Rebuild a property group around an updated core. -/
def XMLPropertyGroup.withCore (pg : XMLPropertyGroup) (c : PGCore) :
    XMLPropertyGroup :=
  .mk c pg.dynamic_properties

mutual
def pgBeq : XMLPropertyGroup → XMLPropertyGroup → Bool
  | .mk c d, .mk c' d' => decide (c = c') && pgsBeq d d'
def pgsBeq : List XMLPropertyGroup → List XMLPropertyGroup → Bool
  | [], [] => true
  | p :: ps, p' :: ps' => pgBeq p p' && pgsBeq ps ps'
  | _, _ => false
end

mutual
theorem pgBeq_iff : ∀ a b : XMLPropertyGroup, pgBeq a b = true ↔ a = b
  | .mk c d, .mk c' d' => by
    simp [pgBeq, pgsBeq_iff d d']
theorem pgsBeq_iff :
    ∀ as bs : List XMLPropertyGroup, pgsBeq as bs = true ↔ as = bs
  | [], [] => by simp [pgsBeq]
  | [], _ :: _ => by simp [pgsBeq]
  | _ :: _, [] => by simp [pgsBeq]
  | a :: as, b :: bs => by
    simp [pgsBeq, pgBeq_iff a b, pgsBeq_iff as bs]
end

instance : DecidableEq XMLPropertyGroup := fun a b =>
  decidable_of_iff (pgBeq a b = true) (pgBeq_iff a b)

/-- Append, or with `replace` on: overwrite the value of the first entry
with the tag, appending when no entry matches. -/
def replaceFirstOrAppend {α} :
    List (String × α) → String → α → List (String × α)
  | [], t, v => [(t, v)]
  | e :: es, t, v =>
    if e.1 = t then (t, v) :: es else e :: replaceFirstOrAppend es t v

/-- The tail of `XMLPropertyGroup.set` on the destination collection:
`replace` scans that collection for the first entry with the tag and
overwrites its value, otherwise (and when nothing matched) a fresh entry
is appended. -/
def setEntry {α} (props : List (String × α)) (tag : String) (v : α)
    (replace : Bool) : List (String × α) :=
  if replace then replaceFirstOrAppend props tag v else props ++ [(tag, v)]

/-- Embedding of `XMLPropertyGroup.set`.  The converter is chosen by
`get_converter_for`, `from_string` runs first (`none` models its
exception escaping `set`), the tag `ConfigType` is diverted into the
dedicated `config_type` field, the tag `FileName` is diverted into the
filename collection (both carry `StringConverter` through the override
table, so the diversions live in the string branch), and the value lands
in the collection of the chosen converter. -/
def XMLPropertyGroup.set (env : Env) (pg : XMLPropertyGroup)
    (tag value_string : String) (replace : Bool) :
    Option XMLPropertyGroup :=
  match get_converter_for tag value_string with
  | .stringC =>
    match StringConverter.from_string value_string with
    | none => none
    | some v =>
      if tag = "ConfigType" then
        some (pg.withCore { pg.core with config_type := v })
      else if tag = "FileName" then
        some (pg.withCore { pg.core with
          filename_properties := setEntry pg.core.filename_properties tag v replace })
      else
        some (pg.withCore { pg.core with
          string_properties := setEntry pg.core.string_properties tag v replace })
  | .boolC =>
    (BoolConverter.from_string value_string).map fun v =>
      pg.withCore { pg.core with
        boolean_properties := setEntry pg.core.boolean_properties tag v replace }
  | .intC =>
    (IntConverter.from_string value_string).map fun v =>
      pg.withCore { pg.core with
        int_properties := setEntry pg.core.int_properties tag v replace }
  | .floatC =>
    (FloatConverter.from_string value_string).map fun v =>
      pg.withCore { pg.core with
        float_properties := setEntry pg.core.float_properties tag v replace }
  | .colorC =>
    (ColorConverter.from_string value_string).map fun v =>
      pg.withCore { pg.core with
        color_properties := setEntry pg.core.color_properties tag v replace }
  | .feedbackC =>
    (FeedbackSequenceConverter.from_string env value_string).map fun v =>
      pg.withCore { pg.core with
        feedback_sequence_properties :=
          setEntry pg.core.feedback_sequence_properties tag v replace }
  | .objectC =>
    (ObjectPointerConverter.from_string env value_string).map fun v =>
      pg.withCore { pg.core with
        object_pointer_properties :=
          setEntry pg.core.object_pointer_properties tag v replace }

/-- Delete the first entry with the tag, `none` when no entry has it. -/
def removeFirstTagEntry {α} :
    List (String × α) → String → Option (List (String × α))
  | [], _ => none
  | e :: es, t =>
    if e.1 = t then some es else (removeFirstTagEntry es t).map (e :: ·)

/-- Delete the first nested subtree with the tag. -/
def removeFirstDyn :
    List XMLPropertyGroup → String → Option (List XMLPropertyGroup)
  | [], _ => none
  | d :: ds, t =>
    if d.tag = t then some ds else (removeFirstDyn ds t).map (d :: ·)

/-- Embedding of `XMLPropertyGroup.remove`: scan the containers in the
order of the source list — feedback sequences, booleans, filenames,
strings, ints, floats, colors, nested subtrees — and delete the first
entry whose tag matches, reporting whether one was found.  The
object-pointer container is absent from the source list, so its entries
are never removed. -/
def XMLPropertyGroup.remove (pg : XMLPropertyGroup) (tag : String) :
    XMLPropertyGroup × Bool :=
  match removeFirstTagEntry pg.core.feedback_sequence_properties tag with
  | some l => (pg.withCore { pg.core with feedback_sequence_properties := l }, true)
  | none =>
  match removeFirstTagEntry pg.core.boolean_properties tag with
  | some l => (pg.withCore { pg.core with boolean_properties := l }, true)
  | none =>
  match removeFirstTagEntry pg.core.filename_properties tag with
  | some l => (pg.withCore { pg.core with filename_properties := l }, true)
  | none =>
  match removeFirstTagEntry pg.core.string_properties tag with
  | some l => (pg.withCore { pg.core with string_properties := l }, true)
  | none =>
  match removeFirstTagEntry pg.core.int_properties tag with
  | some l => (pg.withCore { pg.core with int_properties := l }, true)
  | none =>
  match removeFirstTagEntry pg.core.float_properties tag with
  | some l => (pg.withCore { pg.core with float_properties := l }, true)
  | none =>
  match removeFirstTagEntry pg.core.color_properties tag with
  | some l => (pg.withCore { pg.core with color_properties := l }, true)
  | none =>
  match removeFirstDyn pg.dynamic_properties tag with
  | some ds => (.mk pg.core ds, true)
  | none => (pg, false)

mutual
/-- Embedding of `XMLPropertyGroup.from_node`, which the sources always
invoke on a freshly initialized property group: record the tag, then for
each child in document order store a leaf (no children) through `set`
with the text (`None` becoming `""`), and recurse on a non-leaf into a
new nested property group.  A `none` result models an exception from
`set` (or from a nested parse) escaping `from_node`. -/
def XMLPropertyGroup.from_node (env : Env) : Element → Option XMLPropertyGroup
  | .mk tag _tx cs => fromChildren env cs (.mk { tag := tag } [])
def fromChildren (env : Env) :
    List Element → XMLPropertyGroup → Option XMLPropertyGroup
  | [], pg => some pg
  | c :: rest, pg =>
    if c.children.isEmpty then
      match pg.set env c.tag (c.text.getD "") false with
      | some pg' => fromChildren env rest pg'
      | none => none
    else
      match XMLPropertyGroup.from_node env c with
      | some child => fromChildren env rest (.mk pg.core (pg.dynamic_properties ++ [child]))
      | none => none
end

def Element.appendChild (node : Element) (c : Element) : Element :=
  .mk node.tag node.text (node.children ++ [c])

/-- Set the text of the first child with the tag, keeping its children. -/
def setFirstChildText (tag value : String) : List Element → List Element
  | [] => []
  | c :: cs =>
    if c.tag = tag then Element.mk c.tag (some value) c.children :: cs
    else c :: setFirstChildText tag value cs

/-- Embedding of `find_or_create(target, tag).text = value` for a plain
tag query, the only query `to_node` issues: reuse the first existing
child with that tag or append a fresh one, and set its text. -/
def findOrCreateSetText (node : Element) (tag value : String) : Element :=
  match node.findTag tag with
  | some _ => .mk node.tag node.text (setFirstChildText tag value node.children)
  | none => node.appendChild (leafEl tag value)

mutual
/-- Embedding of `XMLPropertyGroup.to_node`: the target keeps its text
and children (the sources always pass a fresh element), takes the tag of
the property group, receives a `ConfigType` leaf through
`find_or_create` when `config_type` is nonempty, then one leaf per typed
property in the fixed category order of the source list — feedback
sequences, strings, ints, filenames, floats, object pointers, booleans
(color properties are absent from that list) — and finally one serialized
subtree per nested property group not marked deleted, in stored order. -/
def XMLPropertyGroup.to_node (env : Env) :
    XMLPropertyGroup → Element → Element
  | .mk core dyn, target =>
    let t1 : Element := .mk core.tag target.text target.children
    let t2 :=
      if core.config_type ≠ "" then
        findOrCreateSetText t1 "ConfigType" core.config_type
      else t1
    let t3 := core.feedback_sequence_properties.foldl
      (fun t e => t.appendChild (leafEl e.1 (FeedbackSequenceConverter.to_string env e.2))) t2
    let t4 := core.string_properties.foldl
      (fun t e => t.appendChild (leafEl e.1 (StringConverter.to_string e.2))) t3
    let t5 := core.int_properties.foldl
      (fun t e => t.appendChild (leafEl e.1 (IntConverter.to_string e.2))) t4
    let t6 := core.filename_properties.foldl
      (fun t e => t.appendChild (leafEl e.1 (StringConverter.to_string e.2))) t5
    let t7 := core.float_properties.foldl
      (fun t e => t.appendChild (leafEl e.1 (FloatConverter.to_string e.2))) t6
    let t8 := core.object_pointer_properties.foldl
      (fun t e => t.appendChild (leafEl e.1 (ObjectPointerConverter.to_string e.2))) t7
    let t9 := core.boolean_properties.foldl
      (fun t e => t.appendChild (leafEl e.1 (BoolConverter.to_string e.2))) t8
    toNodeDyn env dyn t9
def toNodeDyn (env : Env) :
    List XMLPropertyGroup → Element → Element
  | [], t => t
  | d :: ds, t =>
    if d.deleted then toNodeDyn env ds t
    else
      toNodeDyn env ds
        (t.appendChild (XMLPropertyGroup.to_node env d (.mk d.tag none [])))
end

/-! ## Coordinate transform -/

/-- The `Transform` of `transform.py` with the constructor defaults:
location, quaternion rotation in `(w, x, y, z)` order, Euler rotation
triple, the Euler-mode flag, scale, and the space tag `anno_coords`
(true while the data is in engine space).  The mirror-models preference
is passed explicitly where the source reads it from the addon
preferences. -/
structure Transform where
  location : ℚ × ℚ × ℚ := (0, 0, 0)
  rotation : ℚ × ℚ × ℚ × ℚ := (1, 0, 0, 0)
  rotation_euler : ℚ × ℚ × ℚ := (0, 0, 0)
  euler_rotation : Bool := false
  scale : ℚ × ℚ × ℚ := (1, 1, 1)
  anno_coords : Bool := true
deriving DecidableEq

/-- Embedding of `Transform.convert_to_blender_coords`: a no-op unless
the transform is tagged as engine space; otherwise flip the axes (with
an extra X negation under the mirror preference), permute the quaternion
components, swap the Y/Z Euler and scale components, and clear the space
tag. -/
def Transform.convert_to_blender_coords (mirror : Bool) (t : Transform) :
    Transform :=
  if !t.anno_coords then t
  else
    { t with
      location :=
        if mirror then (-t.location.1, -t.location.2.2, t.location.2.1)
        else (t.location.1, -t.location.2.2, t.location.2.1)
      rotation :=
        if mirror then
          (t.rotation.1, t.rotation.2.1, t.rotation.2.2.2, -t.rotation.2.2.1)
        else
          (t.rotation.1, t.rotation.2.1, t.rotation.2.2.2, t.rotation.2.2.1)
      rotation_euler :=
        (t.rotation_euler.1, t.rotation_euler.2.2, t.rotation_euler.2.1)
      scale := (t.scale.1, t.scale.2.2, t.scale.2.1)
      anno_coords := false }

/-- Embedding of `Transform.convert_to_anno_coords`: a no-op when the
transform is already tagged as engine space; otherwise the inverse axis
flips and component permutations.  The final line of the source is the
bare expression `self.anno_coords` — not an assignment like the
`self.anno_coords = False` of the opposite direction — so it has no
effect and the space tag keeps the value it had (false on this branch). -/
def Transform.convert_to_anno_coords (mirror : Bool) (t : Transform) :
    Transform :=
  if t.anno_coords then t
  else
    { t with
      location :=
        if mirror then (-t.location.1, t.location.2.2, -t.location.2.1)
        else (t.location.1, t.location.2.2, -t.location.2.1)
      rotation :=
        if mirror then
          (t.rotation.1, t.rotation.2.1, -t.rotation.2.2.2, t.rotation.2.2.1)
        else
          (t.rotation.1, t.rotation.2.1, t.rotation.2.2.2, t.rotation.2.2.1)
      rotation_euler :=
        (t.rotation_euler.1, t.rotation_euler.2.2, t.rotation_euler.2.1)
      scale := (t.scale.1, t.scale.2.2, t.scale.2.1)
      anno_coords := t.anno_coords }

/-- Embedding of `Transform.get_component_from_node`: a component absent
from the path table (or mapped to an empty query) yields the default
without touching the node; otherwise the queried child is deleted and
its text parsed with `float`, the default being routed through
`str(default)` when the child or its text is missing.  `none` models the
`ValueError` of `float` on unparseable text. -/
def get_component_from_node (node : Element) (paths : List (String × String))
    (component : String) (default : ℚ) : Option (ℚ × Element) :=
  match paths.lookup component with
  | none => some (default, node)
  | some q =>
    if q = "" then some (default, node)
    else
      let r := get_text_and_delete node q (pyFloatRepr default)
      match pyParseFloat r.1 with
      | some v => some (v, r.2)
      | none => none

/-- Embedding of `Transform.from_node`: read location (default 0) and
scale (default 1) components, force `scale[1] = scale[0]` and then
`scale[2] = scale[1]` when equal scale is enforced (silently: this path
prints nothing), then either the quaternion (w defaulting to 1) or the
Euler components, and tag the result as engine space.  The returned
element is the node with all consumed children deleted. -/
def Transform.from_node (node : Element) (paths : List (String × String))
    (enforce_equal_scale : Bool) (euler_rotation : Bool) :
    Option (Transform × Element) :=
  match get_component_from_node node paths "location.x" 0 with
  | none => none
  | some (lx, n1) =>
  match get_component_from_node n1 paths "location.y" 0 with
  | none => none
  | some (ly, n2) =>
  match get_component_from_node n2 paths "location.z" 0 with
  | none => none
  | some (lz, n3) =>
  match get_component_from_node n3 paths "scale.x" 1 with
  | none => none
  | some (sx, n4) =>
  match get_component_from_node n4 paths "scale.y" 1 with
  | none => none
  | some (sy0, n5) =>
  match get_component_from_node n5 paths "scale.z" 1 with
  | none => none
  | some (sz0, n6) =>
  let sy := if enforce_equal_scale then sx else sy0
  let sz := if enforce_equal_scale then sy else sz0
  if euler_rotation then
    match get_component_from_node n6 paths "rotation_euler.x" 0 with
    | none => none
    | some (ex, n7) =>
    match get_component_from_node n7 paths "rotation_euler.y" 0 with
    | none => none
    | some (ey, n8) =>
    match get_component_from_node n8 paths "rotation_euler.z" 0 with
    | none => none
    | some (ez, n9) =>
      some ({ location := (lx, ly, lz), rotation := (1, 0, 0, 0),
              rotation_euler := (ex, ey, ez), euler_rotation := true,
              scale := (sx, sy, sz), anno_coords := true }, n9)
  else
    match get_component_from_node n6 paths "rotation.w" 1 with
    | none => none
    | some (rw, n7) =>
    match get_component_from_node n7 paths "rotation.x" 0 with
    | none => none
    | some (rx, n8) =>
    match get_component_from_node n8 paths "rotation.y" 0 with
    | none => none
    | some (ry, n9) =>
    match get_component_from_node n9 paths "rotation.z" 0 with
    | none => none
    | some (rz, n10) =>
      some ({ location := (lx, ly, lz), rotation := (rw, rx, ry, rz),
              rotation_euler := (0, 0, 0), euler_rotation := false,
              scale := (sx, sy, sz), anno_coords := true }, n10)

/-- Embedding of `Transform.from_blender_object`, reading the scene
object state passed here as explicit arguments.  When equal scale is
enforced and the three axes differ the source only prints a complaint:
the object scale is stored unchanged in every case.  The Euler branch
stores the Euler triple but leaves the `euler_rotation` flag at its
constructor default, as the source does. -/
def Transform.from_blender_object (objLocation : ℚ × ℚ × ℚ)
    (objRotationQuaternion : ℚ × ℚ × ℚ × ℚ) (objRotationEuler : ℚ × ℚ × ℚ)
    (objScale : ℚ × ℚ × ℚ) (enforce_equal_scale : Bool)
    (euler_rotation : Bool) : Transform :=
  let base : Transform :=
    { location := objLocation, rotation := (1, 0, 0, 0),
      rotation_euler := (0, 0, 0), euler_rotation := false,
      scale := objScale, anno_coords := false }
  if euler_rotation then { base with rotation_euler := objRotationEuler }
  else { base with rotation := objRotationQuaternion }

/-! ## Scene-node naming -/

/-- Model of `pathlib.Path(s).stem` on forward-slash paths: the last
path component without its final suffix (a leading dot alone does not
start a suffix).  Only the empty path is exercised by the claims. -/
def pathStem (s : String) : String :=
  let base := ((pySplitOnChar '/' s).reverse.headD "")
  let revd := base.data.reverse
  let after := revd.takeWhile (fun c => c ≠ '.')
  if after.length = revd.length then base
  else
    let stemRev := revd.drop (after.length + 1)
    if stemRev.isEmpty then base else String.mk stemRev.reverse

/-- Embedding of `AnnoObject.blender_name_from_node`: the `ConfigType`
text (the node tag when absent, the class name when it reads `"i"`),
then `"configType_name"` where the name defaults to the stem of the
`FileName` text. -/
def blender_name_from_node (clsName : String) (node : Element) : String :=
  let config_type := get_text node "ConfigType" node.tag
  let config_type := if config_type = "i" then clsName else config_type
  let file_name := pathStem (get_text node "FileName" "")
  let name := get_text node "Name" file_name
  config_type ++ "_" ++ name

/-! ## Material descriptor and reuse cache -/

/-- The descriptor state of `material.py`: texture role → path, per-role
enable flags, color triples and freeform custom properties, all in
insertion order.  Only the fields feeding the cache key and the cache
itself are relevant to the claims; shader-graph construction is host
rendering and stays outside the model. -/
structure Material where
  name : String := "Unnamed Material"
  textures : List (String × String) := []
  texture_enabled : List (String × Bool) := []
  colors : List (String × (ℚ × ℚ × ℚ)) := []
  custom_properties : List (String × String) := []
deriving DecidableEq

/-- The tuple that `Material.get_material_cache_key` feeds to the
builtin `hash`: the name, the texture path items, the color items (each
color as a tuple) and the custom property items.  The enable flags are
not part of it.  Within one process `hash` is a fixed function of this
tuple, and the key is modelled by the tuple itself: two keys are
identified exactly when a collision-free hash would identify them. -/
def Material.get_material_cache_key (m : Material) :
    String × List (String × String) × List (String × (ℚ × ℚ × ℚ)) ×
      List (String × String) :=
  (m.name, m.textures, m.colors, m.custom_properties)

/-- The `Material.materialCache` dictionary together with a source of
fresh Blender material handles (modelled as consecutive naturals). -/
structure MaterialSession where
  cache :
    List ((String × List (String × String) × List (String × (ℚ × ℚ × ℚ)) ×
      List (String × String)) × Nat) := []
  next_handle : Nat := 0

/-- Embedding of `Material.as_blender_material`: return the cached
material of the key when present, otherwise create a fresh Blender
material, store it under the key and return it. -/
def Material.as_blender_material (m : Material) (s : MaterialSession) :
    Nat × MaterialSession :=
  match s.cache.lookup m.get_material_cache_key with
  | some handle => (handle, s)
  | none =>
    (s.next_handle,
      ⟨s.cache ++ [(m.get_material_cache_key, s.next_handle)],
        s.next_handle + 1⟩)

/-! ## Shape of a serialized node -/

/-- The `ConfigType` leaf `to_node` writes first when the classification
is nonempty. -/
def configTypePart (core : PGCore) : List Element :=
  if core.config_type = "" then [] else [leafEl "ConfigType" core.config_type]

/-- The leaves `to_node` emits, in its fixed category order: feedback
sequences, strings, ints, filenames, floats, object pointers, booleans.
Color properties are not serialized by `to_node`. -/
def serializedLeaves (env : Env) (core : PGCore) : List Element :=
  core.feedback_sequence_properties.map
      (fun e => leafEl e.1 (FeedbackSequenceConverter.to_string env e.2)) ++
    core.string_properties.map (fun e => leafEl e.1 (StringConverter.to_string e.2)) ++
    core.int_properties.map (fun e => leafEl e.1 (IntConverter.to_string e.2)) ++
    core.filename_properties.map (fun e => leafEl e.1 (StringConverter.to_string e.2)) ++
    core.float_properties.map (fun e => leafEl e.1 (FloatConverter.to_string e.2)) ++
    core.object_pointer_properties.map
      (fun e => leafEl e.1 (ObjectPointerConverter.to_string e.2)) ++
    core.boolean_properties.map (fun e => leafEl e.1 (BoolConverter.to_string e.2))

/-- The serialized nested subtrees in stored order, those marked deleted
skipped. -/
def serializedDyn (env : Env) (dyn : List XMLPropertyGroup) : List Element :=
  (dyn.filter (fun d => !d.deleted)).map
    (fun d => XMLPropertyGroup.to_node env d (.mk d.tag none []))

theorem foldl_appendChild {α} (f : α → Element) (l : List α) (t : Element) :
    l.foldl (fun acc e => acc.appendChild (f e)) t =
      .mk t.tag t.text (t.children ++ l.map f) := by
  induction l generalizing t with
  | nil => cases t; simp [Element.tag, Element.text, Element.children]
  | cons a as ih =>
    cases t with
    | mk tg tx cs =>
      simp only [List.foldl_cons]
      have h1 : (Element.mk tg tx cs).appendChild (f a) =
          Element.mk tg tx (cs ++ [f a]) := rfl
      rw [h1, ih]
      simp [Element.tag, Element.text, Element.children, List.append_assoc]

theorem toNodeDyn_shape (env : Env) (ds : List XMLPropertyGroup) (t : Element) :
    toNodeDyn env ds t = .mk t.tag t.text (t.children ++ serializedDyn env ds) := by
  induction ds generalizing t with
  | nil => cases t; simp [toNodeDyn, serializedDyn, Element.tag, Element.text, Element.children]
  | cons d ds ih =>
    cases t
    by_cases hd : d.deleted
    · simp [toNodeDyn, hd, ih, serializedDyn, Element.tag, Element.text, Element.children]
    · simp [toNodeDyn, hd, ih, serializedDyn, Element.appendChild,
        Element.tag, Element.text, Element.children]

/-- On a fresh target element the serialized node consists of the
optional `ConfigType` leaf, the typed leaves in category order, and the
surviving nested subtrees, in that order. -/
theorem to_node_shape (env : Env) (pg : XMLPropertyGroup) (t0 : String) :
    XMLPropertyGroup.to_node env pg (.mk t0 none []) =
      .mk pg.tag none
        (configTypePart pg.core ++ serializedLeaves env pg.core ++
          serializedDyn env pg.dynamic_properties) := by
  cases pg with
  | mk core dyn =>
    have hstart :
        (if core.config_type ≠ "" then
          findOrCreateSetText (.mk core.tag none []) "ConfigType" core.config_type
        else (.mk core.tag none [] : Element)) =
          Element.mk core.tag none (configTypePart core) := by
      by_cases hct : core.config_type = "" <;>
        simp [hct, findOrCreateSetText, Element.findTag, Element.appendChild,
          configTypePart, leafEl, Element.tag, Element.text, Element.children]
    simp only [XMLPropertyGroup.to_node, Element.text, Element.children,
      Element.tag]
    rw [hstart]
    simp only [foldl_appendChild, Element.tag, Element.text, Element.children,
      toNodeDyn_shape]
    simp [XMLPropertyGroup.tag, XMLPropertyGroup.core,
      XMLPropertyGroup.dynamic_properties, serializedLeaves, configTypePart,
      Element.tag, Element.text, Element.children, List.append_assoc]

/-! ## Shared concrete fixtures -/

def env0 : Env := ⟨[], [], []⟩

def pgEmpty : XMLPropertyGroup := .mk {} []

def e6 : Element :=
  .mk "Config" none
    [leafEl "ConfigType" "PROP", leafEl "Name" "Tree",
     leafEl "AdaptTerrainHeight" "1", leafEl "Scale.x" "2.500000"]

def e6stripped : Element := (get_text_and_delete e6 "Name" "").2

def pg6 : XMLPropertyGroup :=
  (XMLPropertyGroup.from_node env0 e6stripped).getD pgEmpty

def t3 : Transform := { location := (1, 2, 3) }

/-! ## Claim theorems (first batch) -/

/-- Claim C2: the claim states that value coercion as invoked by
`XMLPropertyGroup.set` never raises and falls back to the zero value
with a logged warning.  The code raises: for the committed-boolean tag
`AdaptTerrainHeight` with unparseable text `"x"`, `bool(int(s))` (and
likewise the base `Converter.from_string`, whose final `return` re-runs
the conversion outside its `try` block) lets the `ValueError` escape, so
`set` — and `from_node` on an element containing such a leaf — fails
instead of storing `False` and continuing. -/
theorem claim2_code_bug :
    XMLPropertyGroup.set env0 pgEmpty "AdaptTerrainHeight" "x" false = none ∧
    converter_by_tag.lookup "AdaptTerrainHeight" = some ConverterKind.boolC ∧
    XMLPropertyGroup.from_node env0
      (.mk "Config" none [leafEl "AdaptTerrainHeight" "x"]) = none := by
  decide

/-- Claim C3: the no-op guards hold, but the composition
`convert_to_host (convert_to_engine (convert_to_host t)) = convert_to_host t`
fails, because the last line of `convert_to_anno_coords` is the bare
expression `self.anno_coords` instead of an assignment: the space tag
stays false after converting to engine space, so the final
`convert_to_blender_coords` is wrongly a no-op.  Evaluated at the
transform with location `(1, 2, 3)`. -/
theorem claim3_code_bug :
    Transform.convert_to_blender_coords false
        (Transform.convert_to_anno_coords false
          (Transform.convert_to_blender_coords false t3)) ≠
      Transform.convert_to_blender_coords false t3 ∧
    (Transform.convert_to_anno_coords false
        (Transform.convert_to_blender_coords false t3)).anno_coords = false ∧
    (Transform.convert_to_anno_coords false
        (Transform.convert_to_blender_coords false t3)).location = (1, 2, 3) := by
  decide

/-- Claim C5: on a fresh target, `to_node` writes the `ConfigType` leaf
first whenever `config_type` is nonempty, then all typed properties in
the fixed category order (feedback sequences, strings, ints, filenames,
floats, object pointers, booleans), then the nested subtrees in stored
order, skipping exactly those marked deleted. -/
theorem claim5_to_node_order (env : Env) (pg : XMLPropertyGroup) (t0 : String) :
    XMLPropertyGroup.to_node env pg (.mk t0 none []) =
      .mk pg.tag none
        (configTypePart pg.core ++ serializedLeaves env pg.core ++
          serializedDyn env pg.dynamic_properties) :=
  to_node_shape env pg t0

/-- Claim C6: the concrete example.  The display name of the node is
`"PROP_Tree"`, the `Name` leaf is stripped before generic capture, the
property tree receives `config_type = "PROP"`, the boolean
`AdaptTerrainHeight = true` and the float `Scale.x = 2.5`, and
serializing it back renders the boolean as `"1"` and the float as
`"2.500000"` (the `ConfigType` leaf first). -/
theorem claim6_concrete_example :
    blender_name_from_node "Prop" e6 = "PROP_Tree" ∧
    (get_text_and_delete e6 "Name" "").1 = "Tree" ∧
    e6stripped =
      .mk "Config" none
        [leafEl "ConfigType" "PROP", leafEl "AdaptTerrainHeight" "1",
         leafEl "Scale.x" "2.500000"] ∧
    (XMLPropertyGroup.from_node env0 e6stripped).isSome = true ∧
    pg6.core.config_type = "PROP" ∧
    pg6.core.boolean_properties = [("AdaptTerrainHeight", true)] ∧
    pg6.core.float_properties = [("Scale.x", mkRat 5 2)] ∧
    pg6.core.string_properties = [] ∧
    XMLPropertyGroup.to_node env0 pg6 (.mk "Config" none []) =
      .mk "Config" none
        [leafEl "ConfigType" "PROP", leafEl "Scale.x" "2.500000",
         leafEl "AdaptTerrainHeight" "1"] := by
  decide

/-- Claim C8 counterexample: the claim states that with equal-scale
enforcement a non-uniform object scale is replaced by the X value in
`Transform.from_blender_object`; in the code that function only prints a
complaint and stores the object scale unchanged, so the scale
`(1, 2, 3)` survives instead of becoming `(1, 1, 1)`. -/
theorem claim8_counterexample :
    (Transform.from_blender_object (0, 0, 0) (1, 0, 0, 0) (0, 0, 0)
        (1, 2, 3) true false).scale = ((1 : ℚ), (2 : ℚ), (3 : ℚ)) ∧
    ((1 : ℚ), (2 : ℚ), (3 : ℚ)) ≠ ((1 : ℚ), (1 : ℚ), (1 : ℚ)) := by
  decide

/-- Claim C9: starting from an empty material cache, two material
descriptors map to the same Blender material exactly when they agree on
name, texture paths, colors and custom properties (the constituents of
the cache key; the enable flags are not part of it).  The builtin `hash`
the source applies to the key tuple is modelled as collision-free. -/
theorem claim9_material_cache (m1 m2 : Material) :
    ((m2.as_blender_material (m1.as_blender_material {}).2).1 =
        (m1.as_blender_material {}).1 ↔
      (m1.name = m2.name ∧ m1.textures = m2.textures ∧
        m1.colors = m2.colors ∧
        m1.custom_properties = m2.custom_properties)) := by
  have hkey : m2.get_material_cache_key = m1.get_material_cache_key ↔
      (m1.name = m2.name ∧ m1.textures = m2.textures ∧
        m1.colors = m2.colors ∧
        m1.custom_properties = m2.custom_properties) := by
    simp [Material.get_material_cache_key, Prod.ext_iff]
    constructor
    · rintro ⟨h1, h2, h3, h4⟩
      exact ⟨h1.symm, h2.symm, h3.symm, h4.symm⟩
    · rintro ⟨h1, h2, h3, h4⟩
      exact ⟨h1.symm, h2.symm, h3.symm, h4.symm⟩
  by_cases h : m2.get_material_cache_key = m1.get_material_cache_key
  · have hb : (m2.get_material_cache_key == m1.get_material_cache_key) = true := by
      simp [h]
    simp [Material.as_blender_material, List.lookup, hb, hkey.mp h]
  · have hb : (m2.get_material_cache_key == m1.get_material_cache_key) = false := by
      simp [h]
    simp [Material.as_blender_material, List.lookup, hb]
    intro h1 h2 h3 h4
    exact h (hkey.mpr ⟨h1, h2, h3, h4⟩)

/-! ## Claim C4: converter resolution order -/

/-- Claim C4 counterexample: the claim describes the third resolution
step as "text parseable as an integer selects int", but the code tests
`isnumeric` (possibly after stripping leading minus signs) instead.  The
text `"+5"` is parseable as an integer yet selects the float converter,
and `"--5"` is not parseable as an integer yet selects the int
converter. -/
theorem claim4_counterexample :
    pyParseInt "+5" = some 5 ∧
    converter_by_tag.lookup "SomeTag" = none ∧
    get_converter_for "SomeTag" "+5" = ConverterKind.floatC ∧
    ConverterKind.floatC ≠ ConverterKind.intC ∧
    pyParseInt "--5" = none ∧
    get_converter_for "SomeTag" "--5" = ConverterKind.intC := by
  decide

/-- Claim C4 as amended: the resolution order is exact tag lookup in the
override table; else the `_COLOR[` prefix selects color; else text that
is numeric (all digits), possibly after stripping leading minus signs,
selects int; else text parseable as a float selects float; else
string. -/
theorem claim4_amended :
    (∀ tag conv s, converter_by_tag.lookup tag = some conv →
      get_converter_for tag s = conv) ∧
    (∀ tag s, converter_by_tag.lookup tag = none →
      pyStartsWith s "_COLOR[" = true →
      get_converter_for tag s = ConverterKind.colorC) ∧
    (∀ tag s, converter_by_tag.lookup tag = none →
      pyStartsWith s "_COLOR[" = false →
      (pyIsNumeric s || pyIsNumeric (pyLstripMinus s)) = true →
      get_converter_for tag s = ConverterKind.intC) ∧
    (∀ tag s, converter_by_tag.lookup tag = none →
      pyStartsWith s "_COLOR[" = false →
      (pyIsNumeric s || pyIsNumeric (pyLstripMinus s)) = false →
      is_type_float s = true →
      get_converter_for tag s = ConverterKind.floatC) ∧
    (∀ tag s, converter_by_tag.lookup tag = none →
      pyStartsWith s "_COLOR[" = false →
      (pyIsNumeric s || pyIsNumeric (pyLstripMinus s)) = false →
      is_type_float s = false →
      get_converter_for tag s = ConverterKind.stringC) := by
  refine ⟨?_, ?_, ?_, ?_, ?_⟩
  · intro tag conv s h
    simp [get_converter_for, h]
  · intro tag s h1 h2
    simp [get_converter_for, h1, h2]
  · intro tag s h1 h2 h3
    simp [get_converter_for, h1, h2, h3]
  · intro tag s h1 h2 h3 h4
    simp [get_converter_for, h1, h2, h3, h4]
  · intro tag s h1 h2 h3 h4
    simp [get_converter_for, h1, h2, h3, h4]

/-- Witness for the amended C4 at concrete inputs, one per resolution
step. -/
theorem claim4_witness :
    get_converter_for "AdaptTerrainHeight" "2.5" = ConverterKind.boolC ∧
    get_converter_for "SomeTag" "_COLOR[1, 2, 3]" = ConverterKind.colorC ∧
    get_converter_for "SomeTag" "-5" = ConverterKind.intC ∧
    get_converter_for "SomeTag" "2.5" = ConverterKind.floatC ∧
    get_converter_for "SomeTag" "Tree" = ConverterKind.stringC :=
  ⟨claim4_amended.1 "AdaptTerrainHeight" ConverterKind.boolC "2.5" (by decide),
   claim4_amended.2.1 "SomeTag" "_COLOR[1, 2, 3]" (by decide) (by decide),
   claim4_amended.2.2.1 "SomeTag" "-5" (by decide) (by decide) (by decide),
   claim4_amended.2.2.2.1 "SomeTag" "2.5" (by decide) (by decide) (by decide)
     (by decide),
   claim4_amended.2.2.2.2 "SomeTag" "Tree" (by decide) (by decide) (by decide)
     (by decide)⟩

/-! ## Claim C10: color leaves always raise -/

theorem colorFromString_none (s : String) :
    ColorConverter.from_string s = none := by
  simp only [ColorConverter.from_string]
  generalize pySplitOnChar ','
    (pyRemoveAll "]" (pyRemoveAll "_COLOR[" (pyRemoveAll " " s))) = values
  by_cases h : values.length = 3
  · cases values with
    | nil => simp at h
    | cons a t => simp [h, List.mapM, List.mapM.loop, formatFloatOnPyStr]
  · simp [h]

/-- A `set` call on a `_COLOR[`-prefixed value whose tag has no override
raises. -/
theorem set_color_none (env : Env) (pg : XMLPropertyGroup)
    (tag s : String) (replace : Bool)
    (h1 : converter_by_tag.lookup tag = none)
    (h2 : pyStartsWith s "_COLOR[" = true) :
    XMLPropertyGroup.set env pg tag s replace = none := by
  have hconv : get_converter_for tag s = ConverterKind.colorC := by
    simp [get_converter_for, h1, h2]
  simp [XMLPropertyGroup.set, hconv, colorFromString_none]

mutual
/-- Whether an element has, at any depth, a leaf whose text starts with
`_COLOR[` and whose tag is not in the converter override table. -/
def hasColorLeaf : Element → Bool
  | .mk _ _ cs => hasColorLeafList cs
def hasColorLeafList : List Element → Bool
  | [] => false
  | c :: rest =>
    (if c.children.isEmpty then
      (converter_by_tag.lookup c.tag).isNone &&
        pyStartsWith (c.text.getD "") "_COLOR["
    else hasColorLeaf c) || hasColorLeafList rest
end

mutual
theorem from_node_color_none :
    ∀ (env : Env) (e : Element), hasColorLeaf e = true →
      XMLPropertyGroup.from_node env e = none
  | env, .mk t tx cs, h => by
    have hcs : hasColorLeafList cs = true := by
      simpa [hasColorLeaf] using h
    simp [XMLPropertyGroup.from_node,
      fromChildren_color_none env cs (.mk { tag := t } []) hcs]
theorem fromChildren_color_none :
    ∀ (env : Env) (cs : List Element) (pg : XMLPropertyGroup),
      hasColorLeafList cs = true → fromChildren env cs pg = none
  | env, [], pg, h => by simp [hasColorLeafList] at h
  | env, c :: rest, pg, h => by
    by_cases hleaf : c.children.isEmpty
    · by_cases hcolor :
          ((converter_by_tag.lookup c.tag).isNone &&
            pyStartsWith (c.text.getD "") "_COLOR[") = true
      · have hlk : converter_by_tag.lookup c.tag = none := by
          have := (Bool.and_eq_true _ _).mp hcolor |>.1
          simpa [Option.isNone_iff_eq_none] using this
        have hpre : pyStartsWith (c.text.getD "") "_COLOR[" = true :=
          (Bool.and_eq_true _ _).mp hcolor |>.2
        simp [fromChildren, hleaf,
          set_color_none env pg c.tag (c.text.getD "") false hlk hpre]
      · have hrest : hasColorLeafList rest = true := by
          simp [hasColorLeafList, hleaf, hcolor] at h
          exact h
        cases hset : pg.set env c.tag (c.text.getD "") false with
        | none => simp [fromChildren, hleaf, hset]
        | some pg' =>
          simp [fromChildren, hleaf, hset,
            fromChildren_color_none env rest pg' hrest]
    · by_cases hc : hasColorLeaf c = true
      · simp [fromChildren, hleaf, from_node_color_none env c hc]
      · have hrest : hasColorLeafList rest = true := by
          simp [hasColorLeafList, hleaf, hc] at h
          exact h
        cases hsub : XMLPropertyGroup.from_node env c with
        | none => simp [fromChildren, hleaf, hsub]
        | some child =>
          simp [fromChildren, hleaf, hsub,
            fromChildren_color_none env rest (.mk pg.core
              (pg.dynamic_properties ++ [child])) hrest]
end

/-- Claim C10: for every leaf whose raw text starts with `_COLOR[` and
whose tag has no converter override, `set` raises and stores nothing,
and `from_node` on any element containing such a leaf (at any depth)
raises as well: a color leaf is never captured into the property
tree. -/
theorem claim10_color_leaf_raises :
    (∀ (env : Env) (pg : XMLPropertyGroup) (tag s : String) (replace : Bool),
      converter_by_tag.lookup tag = none →
      pyStartsWith s "_COLOR[" = true →
      XMLPropertyGroup.set env pg tag s replace = none) ∧
    (∀ (env : Env) (e : Element), hasColorLeaf e = true →
      XMLPropertyGroup.from_node env e = none) :=
  ⟨set_color_none, from_node_color_none⟩

/-- Witness for C10 at a concrete color leaf. -/
theorem claim10_witness :
    XMLPropertyGroup.set env0 pgEmpty "SomeColor" "_COLOR[1, 2, 3]" false =
      none ∧
    XMLPropertyGroup.from_node env0
      (.mk "Config" none [leafEl "SomeColor" "_COLOR[1, 2, 3]"]) = none :=
  ⟨claim10_color_leaf_raises.1 env0 pgEmpty "SomeColor" "_COLOR[1, 2, 3]" false
     (by decide) (by decide),
   claim10_color_leaf_raises.2 env0
     (.mk "Config" none [leafEl "SomeColor" "_COLOR[1, 2, 3]"]) (by decide)⟩

/-! ## Claim C7: set and remove -/

def pgObjOnly : XMLPropertyGroup :=
  .mk { object_pointer_properties := [("BlenderModelID", some "Foo")] } []

/-- Claim C7 counterexample: `remove` does not scan the object-pointer
container, so the existing entry `BlenderModelID` is not deleted and
`remove` reports failure, contradicting "deletes exactly the first
matching entry from any property category"; and `set` with the tag
`ConfigType` overwrites the dedicated field and appends no entry,
contradicting "always appends a new entry". -/
theorem claim7_counterexample :
    pgObjOnly.remove "BlenderModelID" = (pgObjOnly, false) ∧
    pgObjOnly.core.object_pointer_properties =
      [("BlenderModelID", some "Foo")] ∧
    XMLPropertyGroup.set env0 pgEmpty "ConfigType" "X" false =
      some (.mk { config_type := "X" } []) := by
  decide

/-- Exactly one entry with the given tag was appended to one of the
destination containers `set` can reach, everything else unchanged. -/
def AppendsOne (pg pg' : XMLPropertyGroup) (tag : String) : Prop :=
  (∃ v, pg' = pg.withCore { pg.core with
    feedback_sequence_properties :=
      pg.core.feedback_sequence_properties ++ [(tag, v)] }) ∨
  (∃ v, pg' = pg.withCore { pg.core with
    boolean_properties := pg.core.boolean_properties ++ [(tag, v)] }) ∨
  (∃ v, pg' = pg.withCore { pg.core with
    filename_properties := pg.core.filename_properties ++ [(tag, v)] }) ∨
  (∃ v, pg' = pg.withCore { pg.core with
    string_properties := pg.core.string_properties ++ [(tag, v)] }) ∨
  (∃ v, pg' = pg.withCore { pg.core with
    int_properties := pg.core.int_properties ++ [(tag, v)] }) ∨
  (∃ v, pg' = pg.withCore { pg.core with
    float_properties := pg.core.float_properties ++ [(tag, v)] }) ∨
  (∃ v, pg' = pg.withCore { pg.core with
    object_pointer_properties :=
      pg.core.object_pointer_properties ++ [(tag, v)] })

/-- With `replace` on, the first entry with the tag inside the
destination container was overwritten (appended when absent), everything
else unchanged. -/
def ReplacesOne (pg pg' : XMLPropertyGroup) (tag : String) : Prop :=
  (∃ v, pg' = pg.withCore { pg.core with
    feedback_sequence_properties :=
      replaceFirstOrAppend pg.core.feedback_sequence_properties tag v }) ∨
  (∃ v, pg' = pg.withCore { pg.core with
    boolean_properties :=
      replaceFirstOrAppend pg.core.boolean_properties tag v }) ∨
  (∃ v, pg' = pg.withCore { pg.core with
    filename_properties :=
      replaceFirstOrAppend pg.core.filename_properties tag v }) ∨
  (∃ v, pg' = pg.withCore { pg.core with
    string_properties :=
      replaceFirstOrAppend pg.core.string_properties tag v }) ∨
  (∃ v, pg' = pg.withCore { pg.core with
    int_properties := replaceFirstOrAppend pg.core.int_properties tag v }) ∨
  (∃ v, pg' = pg.withCore { pg.core with
    float_properties :=
      replaceFirstOrAppend pg.core.float_properties tag v }) ∨
  (∃ v, pg' = pg.withCore { pg.core with
    object_pointer_properties :=
      replaceFirstOrAppend pg.core.object_pointer_properties tag v })

/-- Exactly the first matching entry of one scanned container was
deleted, everything else unchanged. -/
def RemovesOne (pg pg' : XMLPropertyGroup) (tag : String) : Prop :=
  (∃ l, removeFirstTagEntry pg.core.feedback_sequence_properties tag = some l ∧
    pg' = pg.withCore { pg.core with feedback_sequence_properties := l }) ∨
  (∃ l, removeFirstTagEntry pg.core.boolean_properties tag = some l ∧
    pg' = pg.withCore { pg.core with boolean_properties := l }) ∨
  (∃ l, removeFirstTagEntry pg.core.filename_properties tag = some l ∧
    pg' = pg.withCore { pg.core with filename_properties := l }) ∨
  (∃ l, removeFirstTagEntry pg.core.string_properties tag = some l ∧
    pg' = pg.withCore { pg.core with string_properties := l }) ∨
  (∃ l, removeFirstTagEntry pg.core.int_properties tag = some l ∧
    pg' = pg.withCore { pg.core with int_properties := l }) ∨
  (∃ l, removeFirstTagEntry pg.core.float_properties tag = some l ∧
    pg' = pg.withCore { pg.core with float_properties := l }) ∨
  (∃ l, removeFirstTagEntry pg.core.color_properties tag = some l ∧
    pg' = pg.withCore { pg.core with color_properties := l }) ∨
  (∃ ds, removeFirstDyn pg.dynamic_properties tag = some ds ∧
    pg' = .mk pg.core ds)

/-- Claim C7 as amended: `set` with `replace = false` and a tag other
than `ConfigType` appends exactly one entry to the destination
container; `set` on `ConfigType` overwrites the dedicated field and
appends nothing; `set` with `replace = true` overwrites the first entry
with the tag within the destination container (appending when absent);
`remove` never touches object-pointer entries, deletes exactly the first
match found while scanning feedback sequences, booleans, filenames,
strings, ints, floats, colors and nested subtrees when it reports
success, and changes nothing when it reports failure. -/
theorem claim7_amended :
    (∀ (env : Env) (pg : XMLPropertyGroup) (tag v : String) pg',
      tag ≠ "ConfigType" →
      XMLPropertyGroup.set env pg tag v false = some pg' →
      AppendsOne pg pg' tag) ∧
    (∀ (env : Env) (pg : XMLPropertyGroup) (v : String) (replace : Bool),
      XMLPropertyGroup.set env pg "ConfigType" v replace =
        some (pg.withCore { pg.core with config_type := v })) ∧
    (∀ (env : Env) (pg : XMLPropertyGroup) (tag v : String) pg',
      tag ≠ "ConfigType" →
      XMLPropertyGroup.set env pg tag v true = some pg' →
      ReplacesOne pg pg' tag) ∧
    (∀ (pg : XMLPropertyGroup) (tag : String),
      (pg.remove tag).1.core.object_pointer_properties =
        pg.core.object_pointer_properties) ∧
    (∀ (pg : XMLPropertyGroup) (tag : String) pg',
      pg.remove tag = (pg', true) → RemovesOne pg pg' tag) ∧
    (∀ (pg : XMLPropertyGroup) (tag : String) pg',
      pg.remove tag = (pg', false) → pg' = pg) := by
  have setCases :
      ∀ (env : Env) (pg : XMLPropertyGroup) (tag v : String) (rep : Bool) pg',
        tag ≠ "ConfigType" →
        XMLPropertyGroup.set env pg tag v rep = some pg' →
        (pg' = pg.withCore { pg.core with
            feedback_sequence_properties :=
              setEntry pg.core.feedback_sequence_properties tag
                ((FeedbackSequenceConverter.from_string env v).getD "none") rep } ∧
          (FeedbackSequenceConverter.from_string env v).isSome = true) ∨
        (pg' = pg.withCore { pg.core with
            boolean_properties :=
              setEntry pg.core.boolean_properties tag
                ((BoolConverter.from_string v).getD false) rep } ∧
          (BoolConverter.from_string v).isSome = true) ∨
        (pg' = pg.withCore { pg.core with
            filename_properties :=
              setEntry pg.core.filename_properties tag v rep }) ∨
        (pg' = pg.withCore { pg.core with
            string_properties := setEntry pg.core.string_properties tag v rep }) ∨
        (pg' = pg.withCore { pg.core with
            int_properties :=
              setEntry pg.core.int_properties tag
                ((IntConverter.from_string v).getD 0) rep } ∧
          (IntConverter.from_string v).isSome = true) ∨
        (pg' = pg.withCore { pg.core with
            float_properties :=
              setEntry pg.core.float_properties tag
                ((FloatConverter.from_string v).getD 0) rep } ∧
          (FloatConverter.from_string v).isSome = true) ∨
        (pg' = pg.withCore { pg.core with
            object_pointer_properties :=
              setEntry pg.core.object_pointer_properties tag
                ((ObjectPointerConverter.from_string env v).getD none) rep } ∧
          (ObjectPointerConverter.from_string env v).isSome = true) := by
    intro env pg tag v rep pg' hne h
    unfold XMLPropertyGroup.set at h
    split at h
    · -- string converter
      simp only [StringConverter.from_string] at h
      rw [if_neg hne] at h
      by_cases hf : tag = "FileName"
      · rw [if_pos hf] at h
        subst hf
        exact Or.inr (Or.inr (Or.inl (Option.some.inj h).symm))
      · rw [if_neg hf] at h
        exact Or.inr (Or.inr (Or.inr (Or.inl (Option.some.inj h).symm)))
    · obtain ⟨b, hb, hfb⟩ := Option.map_eq_some'.mp h
      exact Or.inr (Or.inl ⟨by simp [hb, hfb.symm], by simp [hb]⟩)
    · obtain ⟨b, hb, hfb⟩ := Option.map_eq_some'.mp h
      exact Or.inr (Or.inr (Or.inr (Or.inr (Or.inl
        ⟨by simp [hb, hfb.symm], by simp [hb]⟩))))
    · obtain ⟨b, hb, hfb⟩ := Option.map_eq_some'.mp h
      exact Or.inr (Or.inr (Or.inr (Or.inr (Or.inr (Or.inl
        ⟨by simp [hb, hfb.symm], by simp [hb]⟩)))))
    · rw [colorFromString_none] at h
      simp at h
    · obtain ⟨b, hb, hfb⟩ := Option.map_eq_some'.mp h
      exact Or.inl ⟨by simp [hb, hfb.symm], by simp [hb]⟩
    · obtain ⟨b, hb, hfb⟩ := Option.map_eq_some'.mp h
      exact Or.inr (Or.inr (Or.inr (Or.inr (Or.inr (Or.inr
        ⟨by simp [hb, hfb.symm], by simp [hb]⟩)))))
  refine ⟨?append, ?configtype, ?replace, ?objkept, ?removes, ?failid⟩
  case append =>
    intro env pg tag v pg' hne h
    rcases setCases env pg tag v false pg' hne h with
      ⟨he, -⟩ | ⟨he, -⟩ | he | he | ⟨he, -⟩ | ⟨he, -⟩ | ⟨he, -⟩
    · exact Or.inl ⟨_, by simpa [setEntry] using he⟩
    · exact Or.inr (Or.inl ⟨_, by simpa [setEntry] using he⟩)
    · exact Or.inr (Or.inr (Or.inl ⟨_, by simpa [setEntry] using he⟩))
    · exact Or.inr (Or.inr (Or.inr (Or.inl ⟨_, by simpa [setEntry] using he⟩)))
    · exact Or.inr (Or.inr (Or.inr (Or.inr (Or.inl
        ⟨_, by simpa [setEntry] using he⟩))))
    · exact Or.inr (Or.inr (Or.inr (Or.inr (Or.inr (Or.inl
        ⟨_, by simpa [setEntry] using he⟩)))))
    · exact Or.inr (Or.inr (Or.inr (Or.inr (Or.inr (Or.inr
        ⟨_, by simpa [setEntry] using he⟩)))))
  case configtype =>
    intro env pg v replace
    have hconv : get_converter_for "ConfigType" v = ConverterKind.stringC := rfl
    simp [XMLPropertyGroup.set, hconv, StringConverter.from_string]
  case replace =>
    intro env pg tag v pg' hne h
    rcases setCases env pg tag v true pg' hne h with
      ⟨he, -⟩ | ⟨he, -⟩ | he | he | ⟨he, -⟩ | ⟨he, -⟩ | ⟨he, -⟩
    · exact Or.inl ⟨_, by simpa [setEntry] using he⟩
    · exact Or.inr (Or.inl ⟨_, by simpa [setEntry] using he⟩)
    · exact Or.inr (Or.inr (Or.inl ⟨_, by simpa [setEntry] using he⟩))
    · exact Or.inr (Or.inr (Or.inr (Or.inl ⟨_, by simpa [setEntry] using he⟩)))
    · exact Or.inr (Or.inr (Or.inr (Or.inr (Or.inl
        ⟨_, by simpa [setEntry] using he⟩))))
    · exact Or.inr (Or.inr (Or.inr (Or.inr (Or.inr (Or.inl
        ⟨_, by simpa [setEntry] using he⟩)))))
    · exact Or.inr (Or.inr (Or.inr (Or.inr (Or.inr (Or.inr
        ⟨_, by simpa [setEntry] using he⟩)))))
  case objkept =>
    intro pg tag
    unfold XMLPropertyGroup.remove
    repeat' split
    all_goals
      simp [XMLPropertyGroup.withCore, XMLPropertyGroup.core,
        XMLPropertyGroup.dynamic_properties]
  case removes =>
    intro pg tag pg' h
    unfold XMLPropertyGroup.remove at h
    cases h1 : removeFirstTagEntry pg.core.feedback_sequence_properties tag with
    | some l =>
      rw [h1] at h
      injection h with hl _
      exact Or.inl ⟨l, h1, hl.symm⟩
    | none =>
    rw [h1] at h
    cases h2 : removeFirstTagEntry pg.core.boolean_properties tag with
    | some l =>
      rw [h2] at h
      injection h with hl _
      exact Or.inr (Or.inl ⟨l, h2, hl.symm⟩)
    | none =>
    rw [h2] at h
    cases h3 : removeFirstTagEntry pg.core.filename_properties tag with
    | some l =>
      rw [h3] at h
      injection h with hl _
      exact Or.inr (Or.inr (Or.inl ⟨l, h3, hl.symm⟩))
    | none =>
    rw [h3] at h
    cases h4 : removeFirstTagEntry pg.core.string_properties tag with
    | some l =>
      rw [h4] at h
      injection h with hl _
      exact Or.inr (Or.inr (Or.inr (Or.inl ⟨l, h4, hl.symm⟩)))
    | none =>
    rw [h4] at h
    cases h5 : removeFirstTagEntry pg.core.int_properties tag with
    | some l =>
      rw [h5] at h
      injection h with hl _
      exact Or.inr (Or.inr (Or.inr (Or.inr (Or.inl ⟨l, h5, hl.symm⟩))))
    | none =>
    rw [h5] at h
    cases h6 : removeFirstTagEntry pg.core.float_properties tag with
    | some l =>
      rw [h6] at h
      injection h with hl _
      exact Or.inr (Or.inr (Or.inr (Or.inr (Or.inr (Or.inl ⟨l, h6, hl.symm⟩)))))
    | none =>
    rw [h6] at h
    cases h7 : removeFirstTagEntry pg.core.color_properties tag with
    | some l =>
      rw [h7] at h
      injection h with hl _
      exact Or.inr (Or.inr (Or.inr (Or.inr (Or.inr (Or.inr
        (Or.inl ⟨l, h7, hl.symm⟩))))))
    | none =>
    rw [h7] at h
    cases h8 : removeFirstDyn pg.dynamic_properties tag with
    | some ds =>
      rw [h8] at h
      injection h with hl _
      exact Or.inr (Or.inr (Or.inr (Or.inr (Or.inr (Or.inr (Or.inr
        ⟨ds, h8, hl.symm⟩))))))
    | none =>
      rw [h8] at h
      simp at h
  case failid =>
    intro pg tag pg' h
    unfold XMLPropertyGroup.remove at h
    repeat' split at h
    all_goals simp at h
    exact h.symm

/-- Witness for the amended C7 at concrete property groups. -/
theorem claim7_witness :
    AppendsOne pgEmpty (.mk { string_properties := [("X", "hello")] } []) "X" ∧
    ReplacesOne (.mk { int_properties := [("N", 1)] } [])
      (.mk { int_properties := [("N", 2)] } []) "N" ∧
    RemovesOne (.mk { boolean_properties := [("B", true)] } []) pgEmpty "B" ∧
    pgEmpty = pgEmpty :=
  ⟨claim7_amended.1 env0 pgEmpty "X" "hello" _ (by decide) (by decide),
   claim7_amended.2.2.1 env0 (.mk { int_properties := [("N", 1)] } []) "N" "2" _
     (by decide) (by decide),
   claim7_amended.2.2.2.2.1 (.mk { boolean_properties := [("B", true)] } []) "B"
     pgEmpty (by decide),
   claim7_amended.2.2.2.2.2 pgEmpty "X" pgEmpty (by decide)⟩

/-- Claim C8 as amended: when equal scale is enforced, `Transform.from_node`
silently forces all three scale axes to the X value (whatever the node
contained), while `Transform.from_blender_object` stores the object
scale unchanged (the source only prints a complaint); neither treats the
non-uniformity as a hard failure. -/
theorem claim8_amended :
    (∀ (node : Element) (paths : List (String × String)) (er : Bool)
        (t : Transform) (n' : Element),
      Transform.from_node node paths true er = some (t, n') →
      t.scale.2.1 = t.scale.1 ∧ t.scale.2.2 = t.scale.1) ∧
    (∀ (objLocation : ℚ × ℚ × ℚ) (objRotationQuaternion : ℚ × ℚ × ℚ × ℚ)
        (objRotationEuler : ℚ × ℚ × ℚ) (objScale : ℚ × ℚ × ℚ) (esc er : Bool),
      (Transform.from_blender_object objLocation objRotationQuaternion
        objRotationEuler objScale esc er).scale = objScale) := by
  constructor
  · intro node paths er t n' h
    unfold Transform.from_node at h
    repeat' split at h
    all_goals simp_all
    all_goals (obtain ⟨ht, -⟩ := h; subst ht; simp)
  · intro objLocation objRotationQuaternion objRotationEuler objScale esc er
    cases er <;> simp [Transform.from_blender_object]

def node8 : Element :=
  .mk "T" none
    [leafEl "Scale.x" "2.0", leafEl "Scale.y" "3.0", leafEl "Scale.z" "4.0"]

def paths8 : List (String × String) :=
  [("scale.x", "Scale.x"), ("scale.y", "Scale.y"), ("scale.z", "Scale.z")]

def t8 : Transform := { scale := (2, 2, 2) }

/-- Witness for the amended C8: a node carrying scale `(2, 3, 4)` is
read with all axes forced to the X value, and an object scale `(5, 6, 7)`
is stored unchanged. -/
theorem claim8_witness :
    t8.scale.2.1 = t8.scale.1 ∧ t8.scale.2.2 = t8.scale.1 ∧
    (Transform.from_blender_object (0, 0, 0) (1, 0, 0, 0) (0, 0, 0)
      (5, 6, 7) true false).scale = (5, 6, 7) :=
  ⟨(claim8_amended.1 node8 paths8 false t8 (.mk "T" none []) (by decide)).1,
   (claim8_amended.1 node8 paths8 false t8 (.mk "T" none []) (by decide)).2,
   claim8_amended.2 (0, 0, 0) (1, 0, 0, 0) (0, 0, 0) (5, 6, 7) true false⟩

/-! ## Claim C1: machinery for the amended round-trip invariant -/

/-- A leaf coerces without an exception and into a value whose
serialization the category loop of `to_node` emits: the selected
converter is one of string, bool, int, float, the numeric ones parse,
and the categories whose conversion can raise or lose information
(color, feedback sequence, object pointer) are excluded. -/
def benignLeaf (tag s : String) : Bool :=
  match get_converter_for tag s with
  | .stringC => true
  | .boolC => (pyParseInt s).isSome
  | .intC => (pyParseInt s).isSome
  | .floatC => (pyParseFloat s).isSome
  | _ => false

/-- The (tag, value) pairs of the leaf children, in document order, the
text `None` read as `""`. -/
def leavesOf (cs : List Element) : List (String × String) :=
  cs.filterMap
    (fun c => if c.children.isEmpty then some (c.tag, c.text.getD "") else none)

def convOf (e : String × String) : ConverterKind :=
  get_converter_for e.1 e.2

/-- At most one `ConfigType` leaf, and its text nonempty: a second one
would overwrite the dedicated field and an empty one would be dropped at
serialization. -/
def configOk (ls : List (String × String)) : Bool :=
  let ctl := ls.filter
    (fun e => convOf e = ConverterKind.stringC ∧ e.1 = "ConfigType")
  decide (ctl.length ≤ 1) && ctl.all (fun e => e.2 ≠ "")

mutual
/-- The element round-trips without exceptions or information loss:
every leaf at every depth is benign and the `ConfigType` constraint
holds at every depth. -/
def benignElem : Element → Bool
  | .mk _ _ cs => configOk (leavesOf cs) && benignChildren cs
def benignChildren : List Element → Bool
  | [] => true
  | c :: rest =>
    (if c.children.isEmpty then benignLeaf c.tag (c.text.getD "")
      else benignElem c) && benignChildren rest
end

/-- Total companion of `XMLPropertyGroup.set` with `replace = false`:
on benign leaves it agrees with `set` (failed conversions that `set`
turns into exceptions are defaulted here, but benign leaves never take
those defaults). -/
def setTotal (env : Env) (pg : XMLPropertyGroup) (tag v : String) :
    XMLPropertyGroup :=
  match get_converter_for tag v with
  | .stringC =>
    if tag = "ConfigType" then pg.withCore { pg.core with config_type := v }
    else if tag = "FileName" then
      pg.withCore { pg.core with
        filename_properties := pg.core.filename_properties ++ [(tag, v)] }
    else
      pg.withCore { pg.core with
        string_properties := pg.core.string_properties ++ [(tag, v)] }
  | .boolC =>
    pg.withCore { pg.core with
      boolean_properties :=
        pg.core.boolean_properties ++
          [(tag, decide ((pyParseInt v).getD 0 ≠ 0))] }
  | .intC =>
    pg.withCore { pg.core with
      int_properties := pg.core.int_properties ++ [(tag, (pyParseInt v).getD 0)] }
  | .floatC =>
    pg.withCore { pg.core with
      float_properties :=
        pg.core.float_properties ++ [(tag, (pyParseFloat v).getD 0)] }
  | .feedbackC =>
    pg.withCore { pg.core with
      feedback_sequence_properties :=
        pg.core.feedback_sequence_properties ++
          [(tag, (FeedbackSequenceConverter.from_string env v).getD "none")] }
  | .objectC =>
    pg.withCore { pg.core with
      object_pointer_properties :=
        pg.core.object_pointer_properties ++
          [(tag, (ObjectPointerConverter.from_string env v).getD none)] }
  | .colorC =>
    pg.withCore { pg.core with
      color_properties :=
        pg.core.color_properties ++ [(tag, (ColorConverter.from_string v).getD [])] }

theorem set_benign (env : Env) (pg : XMLPropertyGroup) (tag v : String)
    (h : benignLeaf tag v = true) :
    XMLPropertyGroup.set env pg tag v false = some (setTotal env pg tag v) := by
  unfold benignLeaf at h
  unfold XMLPropertyGroup.set setTotal
  cases hc : get_converter_for tag v <;> rw [hc] at h
  case stringC =>
    by_cases h1 : tag = "ConfigType" <;> by_cases h2 : tag = "FileName" <;>
      simp [h1, h2, StringConverter.from_string, setEntry]
  case boolC =>
    obtain ⟨n, hn⟩ := Option.isSome_iff_exists.mp h
    simp [BoolConverter.from_string, hn, setEntry]
  case intC =>
    obtain ⟨n, hn⟩ := Option.isSome_iff_exists.mp h
    simp [IntConverter.from_string, hn, setEntry]
  case floatC =>
    obtain ⟨q, hq⟩ := Option.isSome_iff_exists.mp h
    simp [FloatConverter.from_string, hq, setEntry]
  case colorC => simp at h
  case feedbackC => simp at h
  case objectC => simp at h

mutual
/-- Total companion of `from_node`: what the parse produces on a benign
element. -/
def fromSpec (env : Env) : Element → XMLPropertyGroup
  | .mk tag _ cs => fromSpecFold env (.mk { tag := tag } []) cs
def fromSpecFold (env : Env) :
    XMLPropertyGroup → List Element → XMLPropertyGroup
  | pg, [] => pg
  | pg, c :: rest =>
    if c.children.isEmpty then
      fromSpecFold env (setTotal env pg c.tag (c.text.getD "")) rest
    else
      fromSpecFold env (.mk pg.core (pg.dynamic_properties ++ [fromSpec env c]))
        rest
end

mutual
theorem from_node_eq_fromSpec :
    ∀ (env : Env) (e : Element), benignElem e = true →
      XMLPropertyGroup.from_node env e = some (fromSpec env e)
  | env, .mk t tx cs, h => by
    have hcs : benignChildren cs = true := by
      have h' := h
      simp only [benignElem, Bool.and_eq_true] at h'
      exact h'.2
    simp [XMLPropertyGroup.from_node, fromSpec,
      fromChildren_eq_fold env cs (.mk { tag := t } []) hcs]
theorem fromChildren_eq_fold :
    ∀ (env : Env) (cs : List Element) (pg : XMLPropertyGroup),
      benignChildren cs = true →
      fromChildren env cs pg = some (fromSpecFold env pg cs)
  | env, [], pg, h => by simp [fromChildren, fromSpecFold]
  | env, c :: rest, pg, h => by
    have h' := h
    simp only [benignChildren, Bool.and_eq_true] at h'
    by_cases hleaf : c.children.isEmpty
    · have hbl : benignLeaf c.tag (c.text.getD "") = true := by
        have := h'.1
        rwa [if_pos hleaf] at this
      simp [fromChildren, fromSpecFold, hleaf,
        set_benign env pg c.tag (c.text.getD "") hbl,
        fromChildren_eq_fold env rest (setTotal env pg c.tag (c.text.getD ""))
          h'.2]
    · have hbe : benignElem c = true := by
        have := h'.1
        rwa [if_neg hleaf] at this
      simp [fromChildren, fromSpecFold, hleaf,
        from_node_eq_fromSpec env c hbe,
        fromChildren_eq_fold env rest
          (.mk pg.core (pg.dynamic_properties ++ [fromSpec env c])) h'.2]
end

/-! ## What the parse stores, per category -/

def extractSeqs (env : Env) (ls : List (String × String)) :
    List (String × String) :=
  ls.filterMap (fun e =>
    if convOf e = ConverterKind.feedbackC then
      some (e.1, (FeedbackSequenceConverter.from_string env e.2).getD "none")
    else none)

def extractBools (ls : List (String × String)) : List (String × Bool) :=
  ls.filterMap (fun e =>
    if convOf e = ConverterKind.boolC then
      some (e.1, decide ((pyParseInt e.2).getD 0 ≠ 0))
    else none)

def extractFilenames (ls : List (String × String)) : List (String × String) :=
  ls.filterMap (fun e =>
    if convOf e = ConverterKind.stringC ∧ e.1 = "FileName" then some e else none)

def extractStrings (ls : List (String × String)) : List (String × String) :=
  ls.filterMap (fun e =>
    if convOf e = ConverterKind.stringC ∧ e.1 ≠ "ConfigType" ∧ e.1 ≠ "FileName"
    then some e else none)

def extractInts (ls : List (String × String)) : List (String × Int) :=
  ls.filterMap (fun e =>
    if convOf e = ConverterKind.intC then some (e.1, (pyParseInt e.2).getD 0)
    else none)

def extractFloats (ls : List (String × String)) : List (String × ℚ) :=
  ls.filterMap (fun e =>
    if convOf e = ConverterKind.floatC then some (e.1, (pyParseFloat e.2).getD 0)
    else none)

def extractColors (ls : List (String × String)) : List (String × List String) :=
  ls.filterMap (fun e =>
    if convOf e = ConverterKind.colorC then
      some (e.1, (ColorConverter.from_string e.2).getD [])
    else none)

def extractObjs (env : Env) (ls : List (String × String)) :
    List (String × Option String) :=
  ls.filterMap (fun e =>
    if convOf e = ConverterKind.objectC then
      some (e.1, (ObjectPointerConverter.from_string env e.2).getD none)
    else none)

/-- The classification finally stored: the last `ConfigType` leaf wins,
the default standing for the initial field value. -/
def lastConfig (ls : List (String × String)) (d : String) : String :=
  ((ls.filter
      (fun e => convOf e = ConverterKind.stringC ∧ e.1 = "ConfigType")).map
    Prod.snd).getLastD d

def fromSpecDyns (env : Env) (cs : List Element) : List XMLPropertyGroup :=
  (cs.filter (fun c => !c.children.isEmpty)).map (fromSpec env)

theorem lastConfig_cons_ct (t v : String) (ls : List (String × String))
    (d : String) (h1 : get_converter_for t v = ConverterKind.stringC)
    (h2 : t = "ConfigType") :
    lastConfig ((t, v) :: ls) d = lastConfig ls v := by
  subst h2
  unfold lastConfig
  rw [List.filter_cons, if_pos (by simp [convOf, h1]), List.map_cons,
    List.getLastD_cons]

theorem lastConfig_cons_other (t v : String) (ls : List (String × String))
    (d : String)
    (h : ¬(get_converter_for t v = ConverterKind.stringC ∧ t = "ConfigType")) :
    lastConfig ((t, v) :: ls) d = lastConfig ls d := by
  unfold lastConfig
  rw [List.filter_cons, if_neg (by simpa [convOf] using h)]

theorem fromSpecFold_fields (env : Env) :
    ∀ (cs : List Element) (pg : XMLPropertyGroup),
      (fromSpecFold env pg cs).core.tag = pg.core.tag ∧
      (fromSpecFold env pg cs).core.config_type =
        lastConfig (leavesOf cs) pg.core.config_type ∧
      (fromSpecFold env pg cs).core.feedback_sequence_properties =
        pg.core.feedback_sequence_properties ++ extractSeqs env (leavesOf cs) ∧
      (fromSpecFold env pg cs).core.boolean_properties =
        pg.core.boolean_properties ++ extractBools (leavesOf cs) ∧
      (fromSpecFold env pg cs).core.filename_properties =
        pg.core.filename_properties ++ extractFilenames (leavesOf cs) ∧
      (fromSpecFold env pg cs).core.string_properties =
        pg.core.string_properties ++ extractStrings (leavesOf cs) ∧
      (fromSpecFold env pg cs).core.int_properties =
        pg.core.int_properties ++ extractInts (leavesOf cs) ∧
      (fromSpecFold env pg cs).core.float_properties =
        pg.core.float_properties ++ extractFloats (leavesOf cs) ∧
      (fromSpecFold env pg cs).core.color_properties =
        pg.core.color_properties ++ extractColors (leavesOf cs) ∧
      (fromSpecFold env pg cs).core.object_pointer_properties =
        pg.core.object_pointer_properties ++ extractObjs env (leavesOf cs) ∧
      (fromSpecFold env pg cs).core.hidden = pg.core.hidden ∧
      (fromSpecFold env pg cs).core.deleted = pg.core.deleted ∧
      (fromSpecFold env pg cs).dynamic_properties =
        pg.dynamic_properties ++ fromSpecDyns env cs := by
  intro cs
  induction cs with
  | nil =>
    intro pg
    simp [fromSpecFold, leavesOf, lastConfig, extractSeqs, extractBools,
      extractFilenames, extractStrings, extractInts, extractFloats,
      extractColors, extractObjs, fromSpecDyns]
  | cons c rest ih =>
    intro pg
    by_cases hleaf : c.children.isEmpty
    · have hleafe : c.children = [] := by
        simpa [List.isEmpty_iff] using hleaf
      have hstep : fromSpecFold env pg (c :: rest) =
          fromSpecFold env (setTotal env pg c.tag (c.text.getD "")) rest := by
        simp [fromSpecFold, hleaf]
      have hlv : leavesOf (c :: rest) =
          (c.tag, c.text.getD "") :: leavesOf rest := by
        simp [leavesOf, hleafe]
      have hdyn : fromSpecDyns env (c :: rest) = fromSpecDyns env rest := by
        simp [fromSpecDyns, hleafe]
      rw [hstep, hlv, hdyn]
      cases hc : get_converter_for c.tag (c.text.getD "")
      · obtain ⟨i1, i2, i3, i4, i5, i6, i7, i8, i9, i10, i11, i12, i13⟩ :=
          ih (setTotal env pg c.tag (c.text.getD ""))
        simp only [i1, i2, i3, i4, i5, i6, i7, i8, i9, i10, i11, i12, i13]
        by_cases h1 : c.tag = "ConfigType"
        · have hc2 := hc
          rw [h1] at hc2
          simp [setTotal, h1, hc2, convOf, extractSeqs, extractBools,
            extractFilenames, extractStrings, extractInts, extractFloats,
            extractColors, extractObjs, lastConfig_cons_ct,
            XMLPropertyGroup.withCore, XMLPropertyGroup.core,
            XMLPropertyGroup.dynamic_properties]
        · by_cases h2 : c.tag = "FileName"
          · have hc2 := hc
            rw [h2] at hc2
            simp [setTotal, h1, h2, hc2, convOf, extractSeqs, extractBools,
              extractFilenames, extractStrings, extractInts, extractFloats,
              extractColors, extractObjs, lastConfig_cons_other,
              XMLPropertyGroup.withCore, XMLPropertyGroup.core,
              XMLPropertyGroup.dynamic_properties]
          · simp [setTotal, h1, h2, hc, convOf, extractSeqs, extractBools,
              extractFilenames, extractStrings, extractInts, extractFloats,
              extractColors, extractObjs, lastConfig_cons_other,
              XMLPropertyGroup.withCore, XMLPropertyGroup.core,
              XMLPropertyGroup.dynamic_properties]
      · obtain ⟨i1, i2, i3, i4, i5, i6, i7, i8, i9, i10, i11, i12, i13⟩ :=
          ih (setTotal env pg c.tag (c.text.getD ""))
        simp only [i1, i2, i3, i4, i5, i6, i7, i8, i9, i10, i11, i12, i13]
        simp [setTotal, hc, convOf, extractSeqs, extractBools, extractFilenames,
          extractStrings, extractInts, extractFloats, extractColors, extractObjs,
          lastConfig_cons_other, XMLPropertyGroup.withCore, XMLPropertyGroup.core,
          XMLPropertyGroup.dynamic_properties]
      · obtain ⟨i1, i2, i3, i4, i5, i6, i7, i8, i9, i10, i11, i12, i13⟩ :=
          ih (setTotal env pg c.tag (c.text.getD ""))
        simp only [i1, i2, i3, i4, i5, i6, i7, i8, i9, i10, i11, i12, i13]
        simp [setTotal, hc, convOf, extractSeqs, extractBools, extractFilenames,
          extractStrings, extractInts, extractFloats, extractColors, extractObjs,
          lastConfig_cons_other, XMLPropertyGroup.withCore, XMLPropertyGroup.core,
          XMLPropertyGroup.dynamic_properties]
      · obtain ⟨i1, i2, i3, i4, i5, i6, i7, i8, i9, i10, i11, i12, i13⟩ :=
          ih (setTotal env pg c.tag (c.text.getD ""))
        simp only [i1, i2, i3, i4, i5, i6, i7, i8, i9, i10, i11, i12, i13]
        simp [setTotal, hc, convOf, extractSeqs, extractBools, extractFilenames,
          extractStrings, extractInts, extractFloats, extractColors, extractObjs,
          lastConfig_cons_other, XMLPropertyGroup.withCore, XMLPropertyGroup.core,
          XMLPropertyGroup.dynamic_properties]
      · obtain ⟨i1, i2, i3, i4, i5, i6, i7, i8, i9, i10, i11, i12, i13⟩ :=
          ih (setTotal env pg c.tag (c.text.getD ""))
        simp only [i1, i2, i3, i4, i5, i6, i7, i8, i9, i10, i11, i12, i13]
        simp [setTotal, hc, convOf, extractSeqs, extractBools, extractFilenames,
          extractStrings, extractInts, extractFloats, extractColors, extractObjs,
          lastConfig_cons_other, XMLPropertyGroup.withCore, XMLPropertyGroup.core,
          XMLPropertyGroup.dynamic_properties]
      · obtain ⟨i1, i2, i3, i4, i5, i6, i7, i8, i9, i10, i11, i12, i13⟩ :=
          ih (setTotal env pg c.tag (c.text.getD ""))
        simp only [i1, i2, i3, i4, i5, i6, i7, i8, i9, i10, i11, i12, i13]
        simp [setTotal, hc, convOf, extractSeqs, extractBools, extractFilenames,
          extractStrings, extractInts, extractFloats, extractColors, extractObjs,
          lastConfig_cons_other, XMLPropertyGroup.withCore, XMLPropertyGroup.core,
          XMLPropertyGroup.dynamic_properties]
      · obtain ⟨i1, i2, i3, i4, i5, i6, i7, i8, i9, i10, i11, i12, i13⟩ :=
          ih (setTotal env pg c.tag (c.text.getD ""))
        simp only [i1, i2, i3, i4, i5, i6, i7, i8, i9, i10, i11, i12, i13]
        simp [setTotal, hc, convOf, extractSeqs, extractBools, extractFilenames,
          extractStrings, extractInts, extractFloats, extractColors, extractObjs,
          lastConfig_cons_other, XMLPropertyGroup.withCore, XMLPropertyGroup.core,
          XMLPropertyGroup.dynamic_properties]
    · have hleafe : ¬c.children = [] := by
        simpa [List.isEmpty_iff] using hleaf
      have hstep : fromSpecFold env pg (c :: rest) =
          fromSpecFold env
            (.mk pg.core (pg.dynamic_properties ++ [fromSpec env c])) rest := by
        simp [fromSpecFold, hleaf]
      have hlv : leavesOf (c :: rest) = leavesOf rest := by
        simp [leavesOf, hleafe]
      have hdyn : fromSpecDyns env (c :: rest) =
          fromSpec env c :: fromSpecDyns env rest := by
        simp [fromSpecDyns, hleaf]
      rw [hstep, hlv, hdyn]
      obtain ⟨i1, i2, i3, i4, i5, i6, i7, i8, i9, i10, i11, i12, i13⟩ :=
        ih (.mk pg.core (pg.dynamic_properties ++ [fromSpec env c]))
      simp only [i1, i2, i3, i4, i5, i6, i7, i8, i9, i10, i11, i12, i13]
      simp [XMLPropertyGroup.core, XMLPropertyGroup.dynamic_properties,
        List.append_assoc]

/-! ## The spec-side round-trip image -/

/-- The canonical re-serialization of a benign leaf value: strings
verbatim, booleans as `"0"`/`"1"` with the truth value of `int(s)`,
ints in canonical decimal form, floats at six decimals. -/
def leafCanonical (env : Env) (tag s : String) : String :=
  match get_converter_for tag s with
  | .stringC => s
  | .boolC => BoolConverter.to_string (decide ((pyParseInt s).getD 0 ≠ 0))
  | .intC => IntConverter.to_string ((pyParseInt s).getD 0)
  | .floatC => FloatConverter.to_string ((pyParseFloat s).getD 0)
  | .feedbackC =>
    FeedbackSequenceConverter.to_string env
      ((FeedbackSequenceConverter.from_string env s).getD "none")
  | .objectC =>
    ObjectPointerConverter.to_string
      ((ObjectPointerConverter.from_string env s).getD none)
  | .colorC => s

def canonLeaf (env : Env) (e : String × String) : Element :=
  leafEl e.1 (leafCanonical env e.1 e.2)

/-- The one `ConfigType` leaf of the round-tripped element, when the
stored classification is nonempty. -/
def rtConfig (ls : List (String × String)) : List Element :=
  if lastConfig ls "" = "" then [] else [leafEl "ConfigType" (lastConfig ls "")]

/-- The round-tripped leaves: every original leaf pair, re-serialized
canonically, grouped in the fixed category order of `to_node`. -/
def rtLeaves (env : Env) (ls : List (String × String)) : List Element :=
  (ls.filter (fun e => convOf e = ConverterKind.feedbackC)).map (canonLeaf env) ++
    (ls.filter (fun e => convOf e = ConverterKind.stringC ∧
      e.1 ≠ "ConfigType" ∧ e.1 ≠ "FileName")).map (canonLeaf env) ++
    (ls.filter (fun e => convOf e = ConverterKind.intC)).map (canonLeaf env) ++
    (ls.filter (fun e => convOf e = ConverterKind.stringC ∧
      e.1 = "FileName")).map (canonLeaf env) ++
    (ls.filter (fun e => convOf e = ConverterKind.floatC)).map (canonLeaf env) ++
    (ls.filter (fun e => convOf e = ConverterKind.objectC)).map (canonLeaf env) ++
    (ls.filter (fun e => convOf e = ConverterKind.boolC)).map (canonLeaf env)

mutual
/-- The element the round trip is expected to produce: original tag, the
`ConfigType` leaf first, every original leaf with its canonical value in
category order, then the non-leaf children round-tripped recursively in
document order. -/
def rtSpec (env : Env) : Element → Element
  | .mk tag _ cs =>
    .mk tag none
      (rtConfig (leavesOf cs) ++ rtLeaves env (leavesOf cs) ++ rtDyns env cs)
def rtDyns (env : Env) : List Element → List Element
  | [] => []
  | c :: rest =>
    (if c.children.isEmpty then [] else [rtSpec env c]) ++ rtDyns env rest
end

theorem filterMap_map_matches {α β γ} (f : α → Option β) (g : β → γ)
    (p : α → Bool) (k : α → γ)
    (H1 : ∀ a, p a = true → ∃ b, f a = some b ∧ g b = k a)
    (H2 : ∀ a, p a = false → f a = none) :
    ∀ ls : List α, (ls.filterMap f).map g = (ls.filter p).map k := by
  intro ls
  induction ls with
  | nil => simp
  | cons a as ih =>
    cases hp : p a with
    | true =>
      obtain ⟨b, hb, hgb⟩ := H1 a hp
      simp [List.filterMap_cons, List.filter_cons, hb, hp, hgb, ih]
    | false =>
      simp [List.filterMap_cons, List.filter_cons, H2 a hp, hp, ih]

theorem seqsMatch (env : Env) (ls : List (String × String)) :
    (extractSeqs env ls).map
        (fun e => leafEl e.1 (FeedbackSequenceConverter.to_string env e.2)) =
      (ls.filter (fun e => convOf e = ConverterKind.feedbackC)).map
        (canonLeaf env) := by
  refine filterMap_map_matches _ _ _ _ ?_ ?_ ls
  · intro a hp
    simp only [decide_eq_true_eq] at hp
    refine ⟨(a.1, (FeedbackSequenceConverter.from_string env a.2).getD "none"),
      by simp [hp], ?_⟩
    cases a with
    | mk a1 a2 =>
      have hp' : get_converter_for a1 a2 = ConverterKind.feedbackC := hp
      simp [canonLeaf, leafCanonical, hp']
  · intro a hp
    simp only [decide_eq_false_iff_not] at hp
    simp [hp]

theorem stringsMatch (env : Env) (ls : List (String × String)) :
    (extractStrings ls).map
        (fun e => leafEl e.1 (StringConverter.to_string e.2)) =
      (ls.filter (fun e => convOf e = ConverterKind.stringC ∧
        e.1 ≠ "ConfigType" ∧ e.1 ≠ "FileName")).map (canonLeaf env) := by
  refine filterMap_map_matches _ _ _ _ ?_ ?_ ls
  · intro a hp
    simp only [decide_eq_true_eq] at hp
    refine ⟨a, by simp [hp], ?_⟩
    cases a with
    | mk a1 a2 =>
      have hp' : get_converter_for a1 a2 = ConverterKind.stringC := hp.1
      simp [canonLeaf, leafCanonical, hp', StringConverter.to_string]
  · intro a hp
    simp only [decide_eq_false_iff_not] at hp
    simp [hp]

theorem intsMatch (env : Env) (ls : List (String × String)) :
    (extractInts ls).map (fun e => leafEl e.1 (IntConverter.to_string e.2)) =
      (ls.filter (fun e => convOf e = ConverterKind.intC)).map (canonLeaf env) := by
  refine filterMap_map_matches _ _ _ _ ?_ ?_ ls
  · intro a hp
    simp only [decide_eq_true_eq] at hp
    refine ⟨(a.1, (pyParseInt a.2).getD 0), by simp [hp], ?_⟩
    cases a with
    | mk a1 a2 =>
      have hp' : get_converter_for a1 a2 = ConverterKind.intC := hp
      simp [canonLeaf, leafCanonical, hp']
  · intro a hp
    simp only [decide_eq_false_iff_not] at hp
    simp [hp]

theorem filenamesMatch (env : Env) (ls : List (String × String)) :
    (extractFilenames ls).map
        (fun e => leafEl e.1 (StringConverter.to_string e.2)) =
      (ls.filter (fun e => convOf e = ConverterKind.stringC ∧
        e.1 = "FileName")).map (canonLeaf env) := by
  refine filterMap_map_matches _ _ _ _ ?_ ?_ ls
  · intro a hp
    simp only [decide_eq_true_eq] at hp
    refine ⟨a, by simp [hp], ?_⟩
    cases a with
    | mk a1 a2 =>
      have hp' : get_converter_for a1 a2 = ConverterKind.stringC := hp.1
      simp [canonLeaf, leafCanonical, hp', StringConverter.to_string]
  · intro a hp
    simp only [decide_eq_false_iff_not] at hp
    simp [hp]

theorem floatsMatch (env : Env) (ls : List (String × String)) :
    (extractFloats ls).map (fun e => leafEl e.1 (FloatConverter.to_string e.2)) =
      (ls.filter (fun e => convOf e = ConverterKind.floatC)).map (canonLeaf env) := by
  refine filterMap_map_matches _ _ _ _ ?_ ?_ ls
  · intro a hp
    simp only [decide_eq_true_eq] at hp
    refine ⟨(a.1, (pyParseFloat a.2).getD 0), by simp [hp], ?_⟩
    cases a with
    | mk a1 a2 =>
      have hp' : get_converter_for a1 a2 = ConverterKind.floatC := hp
      simp [canonLeaf, leafCanonical, hp']
  · intro a hp
    simp only [decide_eq_false_iff_not] at hp
    simp [hp]

theorem objsMatch (env : Env) (ls : List (String × String)) :
    (extractObjs env ls).map
        (fun e => leafEl e.1 (ObjectPointerConverter.to_string e.2)) =
      (ls.filter (fun e => convOf e = ConverterKind.objectC)).map (canonLeaf env) := by
  refine filterMap_map_matches _ _ _ _ ?_ ?_ ls
  · intro a hp
    simp only [decide_eq_true_eq] at hp
    refine ⟨(a.1, (ObjectPointerConverter.from_string env a.2).getD none),
      by simp [hp], ?_⟩
    cases a with
    | mk a1 a2 =>
      have hp' : get_converter_for a1 a2 = ConverterKind.objectC := hp
      simp [canonLeaf, leafCanonical, hp']
  · intro a hp
    simp only [decide_eq_false_iff_not] at hp
    simp [hp]

theorem boolsMatch (env : Env) (ls : List (String × String)) :
    (extractBools ls).map (fun e => leafEl e.1 (BoolConverter.to_string e.2)) =
      (ls.filter (fun e => convOf e = ConverterKind.boolC)).map (canonLeaf env) := by
  refine filterMap_map_matches _ _ _ _ ?_ ?_ ls
  · intro a hp
    simp only [decide_eq_true_eq] at hp
    refine ⟨(a.1, decide ((pyParseInt a.2).getD 0 ≠ 0)), by simp [hp], ?_⟩
    cases a with
    | mk a1 a2 =>
      have hp' : get_converter_for a1 a2 = ConverterKind.boolC := hp
      simp [canonLeaf, leafCanonical, hp']
  · intro a hp
    simp only [decide_eq_false_iff_not] at hp
    simp [hp]

theorem fromSpec_flags (env : Env) (e : Element) :
    (fromSpec env e).deleted = false ∧ (fromSpec env e).tag = e.tag := by
  cases e with
  | mk t tx cs =>
    obtain ⟨i1, _, _, _, _, _, _, _, _, _, _, i12, _⟩ :=
      fromSpecFold_fields env cs (.mk { tag := t } [])
    constructor
    · rw [show fromSpec env (.mk t tx cs) =
        fromSpecFold env (.mk { tag := t } []) cs from rfl]
      simp only [XMLPropertyGroup.deleted]
      rw [i12]
      rfl
    · rw [show fromSpec env (.mk t tx cs) =
        fromSpecFold env (.mk { tag := t } []) cs from rfl]
      simp only [XMLPropertyGroup.tag]
      rw [i1]
      rfl

mutual
/-- Serializing the total parse of any element (on a fresh target, as
the sources do) yields exactly the spec-side round-trip image. -/
theorem toNode_fromSpec :
    ∀ (env : Env) (e : Element),
      XMLPropertyGroup.to_node env (fromSpec env e) (.mk e.tag none []) =
        rtSpec env e
  | env, .mk t tx cs => by
    obtain ⟨i1, i2, i3, i4, i5, i6, i7, i8, i9, i10, i11, i12, i13⟩ :=
      fromSpecFold_fields env cs (.mk { tag := t } [])
    rw [show fromSpec env (.mk t tx cs) =
      fromSpecFold env (.mk { tag := t } []) cs from rfl]
    rw [to_node_shape]
    rw [show rtSpec env (.mk t tx cs) = .mk t none
      (rtConfig (leavesOf cs) ++ rtLeaves env (leavesOf cs) ++ rtDyns env cs)
      from rfl]
    have htag : (fromSpecFold env (.mk { tag := t } []) cs).tag = t := by
      simp only [XMLPropertyGroup.tag]
      rw [i1]
      rfl
    have hconf :
        configTypePart (fromSpecFold env (.mk { tag := t } []) cs).core =
          rtConfig (leavesOf cs) := by
      simp only [configTypePart]
      rw [i2]
      rfl
    have hleaves :
        serializedLeaves env (fromSpecFold env (.mk { tag := t } []) cs).core =
          rtLeaves env (leavesOf cs) := by
      simp only [serializedLeaves, rtLeaves]
      rw [i3, i4, i5, i6, i7, i8, i10]
      rw [← seqsMatch env (leavesOf cs), ← stringsMatch env (leavesOf cs),
        ← intsMatch env (leavesOf cs), ← filenamesMatch env (leavesOf cs),
        ← floatsMatch env (leavesOf cs), ← objsMatch env (leavesOf cs),
        ← boolsMatch env (leavesOf cs)]
      simp [XMLPropertyGroup.core]
    have hdyn :
        serializedDyn env
            (fromSpecFold env (.mk { tag := t } []) cs).dynamic_properties =
          rtDyns env cs := by
      rw [i13]
      simp only [XMLPropertyGroup.dynamic_properties, List.nil_append]
      exact rtDyns_chain env cs
    rw [htag, hconf, hleaves, hdyn]
theorem rtDyns_chain :
    ∀ (env : Env) (cs : List Element),
      serializedDyn env (fromSpecDyns env cs) = rtDyns env cs
  | env, [] => by simp [fromSpecDyns, serializedDyn, rtDyns]
  | env, c :: rest => by
    by_cases hleaf : c.children.isEmpty
    · have h1 : fromSpecDyns env (c :: rest) = fromSpecDyns env rest := by
        simp [fromSpecDyns, hleaf]
      rw [h1, rtDyns_chain env rest]
      simp [rtDyns, hleaf]
    · have h1 : fromSpecDyns env (c :: rest) =
          fromSpec env c :: fromSpecDyns env rest := by
        simp [fromSpecDyns, hleaf]
      rw [h1]
      have hflags := fromSpec_flags env c
      have h2 : serializedDyn env (fromSpec env c :: fromSpecDyns env rest) =
          XMLPropertyGroup.to_node env (fromSpec env c)
              (.mk (fromSpec env c).tag none []) ::
            serializedDyn env (fromSpecDyns env rest) := by
        simp [serializedDyn, List.filter_cons, hflags.1]
      rw [h2, hflags.2, toNode_fromSpec env c, rtDyns_chain env rest]
      simp [rtDyns, hleaf]
end

theorem benignChildren_leaves :
    ∀ (cs : List Element), benignChildren cs = true →
      ∀ p ∈ leavesOf cs, benignLeaf p.1 p.2 = true := by
  intro cs
  induction cs with
  | nil => simp [leavesOf]
  | cons c rest ih =>
    intro h p hp
    simp only [benignChildren, Bool.and_eq_true] at h
    by_cases hleaf : c.children.isEmpty
    · have hleafe : c.children = [] := by
        simpa [List.isEmpty_iff] using hleaf
      rw [show leavesOf (c :: rest) = (c.tag, c.text.getD "") :: leavesOf rest
        from by simp [leavesOf, hleafe]] at hp
      rcases List.mem_cons.mp hp with h1 | h1
      · have hbl := h.1
        rw [if_pos hleaf] at hbl
        rw [h1]
        exact hbl
      · exact ih h.2 p h1
    · have hleafe : ¬c.children = [] := by
        simpa [List.isEmpty_iff] using hleaf
      rw [show leavesOf (c :: rest) = leavesOf rest
        from by simp [leavesOf, hleafe]] at hp
      exact ih h.2 p hp

/-- Claim C1 counterexample: the original claim promises that every
element round-trips through `from_node`/`to_node` with every tag/value
pair preserved, whatever type was inferred.  For an element whose leaf
gets the color converter inferred, `from_node` raises (the conversion
applies the fixed-point float format to a string) and produces nothing
at all. -/
theorem claim1_counterexample :
    XMLPropertyGroup.from_node env0
      (.mk "Config" none [leafEl "X" "_COLOR[1, 2, 3]"]) = none ∧
    benignLeaf "X" "_COLOR[1, 2, 3]" = false := by
  decide

/-- Claim C1 as amended: for every element all of whose leaves are
benign — the inferred converter is string, bool, int or float and the
numeric ones parse (no `_COLOR[` leaves on non-overridden tags, no
sequence-reference or object-pointer tags), and `ConfigType` appears at
most once per node with nonempty text — `from_node` succeeds, and
serializing the result with `to_node` on a fresh target yields exactly
the spec-side image `rtSpec`: the `ConfigType` leaf first, every
original leaf pair with its canonically re-serialized value in the fixed
category order, and the non-leaf subtrees round-tripped recursively in
document order.  In particular every non-`ConfigType` leaf pair appears
(canonically re-serialized) among the children, and the `ConfigType`
pair is preserved verbatim. -/
theorem claim1_roundtrip_amended :
    ∀ (env : Env) (e : Element), benignElem e = true →
      XMLPropertyGroup.from_node env e = some (fromSpec env e) ∧
      XMLPropertyGroup.to_node env (fromSpec env e) (.mk e.tag none []) =
        rtSpec env e ∧
      (∀ p ∈ leavesOf e.children, p.1 ≠ "ConfigType" →
        canonLeaf env p ∈ (rtSpec env e).children) ∧
      (∀ p ∈ leavesOf e.children, p.1 = "ConfigType" → p.2 ≠ "" →
        leafEl "ConfigType" p.2 ∈ (rtSpec env e).children) := by
  intro env e hB
  refine ⟨from_node_eq_fromSpec env e hB, toNode_fromSpec env e, ?_, ?_⟩
  · cases e with
    | mk t tx cs =>
      intro p hp hne
      have hcs : benignChildren cs = true := by
        simp only [benignElem, Bool.and_eq_true] at hB
        exact hB.2
      have hbl : benignLeaf p.1 p.2 := by
        have := benignChildren_leaves cs hcs p (by simpa [Element.children] using hp)
        exact this
      unfold benignLeaf at hbl
      rw [show (rtSpec env (.mk t tx cs)).children =
        rtConfig (leavesOf cs) ++ rtLeaves env (leavesOf cs) ++ rtDyns env cs
        from rfl]
      simp only [Element.children] at hp
      simp only [rtLeaves, List.append_assoc, List.mem_append]
      cases hc : get_converter_for p.1 p.2 <;> rw [hc] at hbl
      case stringC =>
        by_cases hfn : p.1 = "FileName"
        · exact Or.inr (Or.inr (Or.inr (Or.inr (Or.inl
            (List.mem_map_of_mem _
              (List.mem_filter.mpr ⟨hp, by
                simp [convOf, hc, hfn,
                  show get_converter_for "FileName" p.2 = ConverterKind.stringC
                    from rfl]⟩))))))
        · exact Or.inr (Or.inr (Or.inl
            (List.mem_map_of_mem _
              (List.mem_filter.mpr ⟨hp, by simp [convOf, hc, hne, hfn]⟩))))
      case boolC =>
        exact Or.inr (Or.inr (Or.inr (Or.inr (Or.inr (Or.inr (Or.inr (Or.inl
          (List.mem_map_of_mem _
            (List.mem_filter.mpr ⟨hp, by simp [convOf, hc]⟩)))))))))
      case intC =>
        exact Or.inr (Or.inr (Or.inr (Or.inl
          (List.mem_map_of_mem _
            (List.mem_filter.mpr ⟨hp, by simp [convOf, hc]⟩)))))
      case floatC =>
        exact Or.inr (Or.inr (Or.inr (Or.inr (Or.inr (Or.inl
          (List.mem_map_of_mem _
            (List.mem_filter.mpr ⟨hp, by simp [convOf, hc]⟩)))))))
      case colorC => simp at hbl
      case feedbackC => simp at hbl
      case objectC => simp at hbl
  · cases e with
    | mk t tx cs =>
      intro p hp hct hne
      obtain ⟨p1, p2⟩ := p
      simp only at hct hne
      subst hct
      have hcfg : configOk (leavesOf cs) = true := by
        simp only [benignElem, Bool.and_eq_true] at hB
        exact hB.1
      simp only [Element.children] at hp
      have hconv :
          convOf ("ConfigType", p2) = ConverterKind.stringC := rfl
      have hpL : ("ConfigType", p2) ∈ (leavesOf cs).filter
          (fun e => convOf e = ConverterKind.stringC ∧ e.1 = "ConfigType") :=
        List.mem_filter.mpr ⟨hp, by simp [hconv]⟩
      simp only [configOk, Bool.and_eq_true, decide_eq_true_eq] at hcfg
      have hL : (leavesOf cs).filter
          (fun e => convOf e = ConverterKind.stringC ∧ e.1 = "ConfigType") =
          [("ConfigType", p2)] := by
        rcases hLs : (leavesOf cs).filter
            (fun e => convOf e = ConverterKind.stringC ∧ e.1 = "ConfigType") with
          _ | ⟨a, _ | ⟨b, r⟩⟩
        · rw [hLs] at hpL
          simp at hpL
        · rw [hLs] at hpL
          simp at hpL
          rw [hpL]
        · have := hcfg.1
          rw [hLs] at this
          simp at this
      have hlast : lastConfig (leavesOf cs) "" = p2 := by
        unfold lastConfig
        rw [hL]
        rfl
      rw [show (rtSpec env (.mk t tx cs)).children =
        rtConfig (leavesOf cs) ++ rtLeaves env (leavesOf cs) ++ rtDyns env cs
        from rfl]
      have hrt : rtConfig (leavesOf cs) = [leafEl "ConfigType" p2] := by
        simp [rtConfig, hlast, hne]
      rw [hrt]
      simp

def eW : Element :=
  .mk "Config" none
    [leafEl "ConfigType" "PROP", leafEl "X" "5", leafEl "B" "hello",
     .mk "Sub" none [leafEl "Y" "1.5"]]

/-- Witness for the amended C1 at a concrete benign element with a
nested subtree. -/
theorem claim1_witness :
    XMLPropertyGroup.from_node env0 eW = some (fromSpec env0 eW) ∧
    XMLPropertyGroup.to_node env0 (fromSpec env0 eW) (.mk eW.tag none []) =
      rtSpec env0 eW ∧
    canonLeaf env0 ("X", "5") ∈ (rtSpec env0 eW).children ∧
    leafEl "ConfigType" "PROP" ∈ (rtSpec env0 eW).children :=
  ⟨(claim1_roundtrip_amended env0 eW (by decide)).1,
   (claim1_roundtrip_amended env0 eW (by decide)).2.1,
   (claim1_roundtrip_amended env0 eW (by decide)).2.2.1 ("X", "5") (by decide)
     (by decide),
   (claim1_roundtrip_amended env0 eW (by decide)).2.2.2 ("ConfigType", "PROP")
     (by decide) (by decide) (by decide)⟩
